import Mathlib

/-!
Shallow embedding of the gql2j GraphQL-to-Java generator core
(scalar registry, type mapper, naming helper, directive extraction,
annotation generators, import manager, per-type generators and the
generation orchestrator), together with theorems checking the
natural-language specification against this embedding.

Modelling conventions:
  - Go maps are modelled as association lists looked up by first match
    (Go map keys are unique, so first match equals map lookup); the
    nondeterministic iteration order of Go maps is fixed to list order
    where the source iterates a map (this affects only cosmetic
    annotation ordering, as the spec itself notes).
  - Go (value, error) returns are modelled with Except.
  - Go strings are Lean Strings; character-level work happens on
    String.data.  unicode.ToUpper/ToLower are modelled by their ASCII
    restriction, which agrees with Go on the ASCII identifiers and
    type names manipulated here.
  - Mutation of the per-type import accumulator is modelled by explicit
    state passing.
-/

namespace Gql2J

/-! ## Scalar registry (internal/typemap/scalars.go) -/

/-- ScalarInfo from scalars.go; `boxed` is declared in the source but never
populated or read. -/
structure ScalarInfo where
  javaType : String
  primitiveType : String := ""
  imports : List String := []
  boxed : String := ""
  deriving Repr, DecidableEq

/-- BuiltinScalars from scalars.go, as a lookup function. -/
def BuiltinScalars : String → Option ScalarInfo
  | "String" => some { javaType := "String" }
  | "Int" => some { javaType := "Integer", primitiveType := "int" }
  | "Float" => some { javaType := "Double", primitiveType := "double" }
  | "Boolean" => some { javaType := "Boolean", primitiveType := "boolean" }
  | "ID" => some { javaType := "String" }
  | _ => none

/-- CommonScalars from scalars.go, as a lookup function. -/
def CommonScalars : String → Option ScalarInfo
  | "DateTime" => some { javaType := "LocalDateTime", imports := ["java.time.LocalDateTime"] }
  | "Date" => some { javaType := "LocalDate", imports := ["java.time.LocalDate"] }
  | "Time" => some { javaType := "LocalTime", imports := ["java.time.LocalTime"] }
  | "Instant" => some { javaType := "Instant", imports := ["java.time.Instant"] }
  | "UUID" => some { javaType := "UUID", imports := ["java.util.UUID"] }
  | "BigDecimal" => some { javaType := "BigDecimal", imports := ["java.math.BigDecimal"] }
  | "BigInteger" => some { javaType := "BigInteger", imports := ["java.math.BigInteger"] }
  | "Long" => some { javaType := "Long", primitiveType := "long" }
  | "Short" => some { javaType := "Short", primitiveType := "short" }
  | "Byte" => some { javaType := "Byte", primitiveType := "byte" }
  | "Char" => some { javaType := "Character", primitiveType := "char" }
  | "JSON" => some { javaType := "JsonNode", imports := ["com.fasterxml.jackson.databind.JsonNode"] }
  | "JSONObject" => some { javaType := "ObjectNode", imports := ["com.fasterxml.jackson.databind.node.ObjectNode"] }
  | "JSONArray" => some { javaType := "ArrayNode", imports := ["com.fasterxml.jackson.databind.node.ArrayNode"] }
  | "URL" => some { javaType := "URL", imports := ["java.net.URL"] }
  | "URI" => some { javaType := "URI", imports := ["java.net.URI"] }
  | _ => none

/-- PrimitiveToBoxed from scalars.go. -/
def PrimitiveToBoxed : String → Option String
  | "int" => some "Integer"
  | "long" => some "Long"
  | "short" => some "Short"
  | "byte" => some "Byte"
  | "float" => some "Float"
  | "double" => some "Double"
  | "boolean" => some "Boolean"
  | "char" => some "Character"
  | _ => none

/-- BoxedToPrimitive from scalars.go. -/
def BoxedToPrimitive : String → Option String
  | "Integer" => some "int"
  | "Long" => some "long"
  | "Short" => some "short"
  | "Byte" => some "byte"
  | "Float" => some "float"
  | "Double" => some "double"
  | "Boolean" => some "boolean"
  | "Character" => some "char"
  | _ => none

/-- IsPrimitive from scalars.go. -/
def IsPrimitive (javaType : String) : Bool :=
  (PrimitiveToBoxed javaType).isSome

/-- IsBoxed from scalars.go. -/
def IsBoxed (javaType : String) : Bool :=
  (BoxedToPrimitive javaType).isSome

/-- BoxType from scalars.go. -/
def BoxType (javaType : String) : String :=
  match PrimitiveToBoxed javaType with
  | some boxed => boxed
  | none => javaType

/-- UnboxType from scalars.go. -/
def UnboxType (javaType : String) : String :=
  match BoxedToPrimitive javaType with
  | some primitiveType => primitiveType
  | none => javaType

/-- CollectionInfo from collections source; `ifaceName` is the source field
`Interface`. -/
structure CollectionInfo where
  ifaceName : String
  implementation : String
  imports : List String
  deriving Repr, DecidableEq

/-- CollectionTypes table, as a lookup function. -/
def CollectionTypes : String → Option CollectionInfo
  | "List" =>
      some { ifaceName := "List", implementation := "ArrayList",
             imports := ["java.util.List", "java.util.ArrayList"] }
  | "Set" =>
      some { ifaceName := "Set", implementation := "HashSet",
             imports := ["java.util.Set", "java.util.HashSet"] }
  | "Collection" =>
      some { ifaceName := "Collection", implementation := "ArrayList",
             imports := ["java.util.Collection", "java.util.ArrayList"] }
  | "SortedSet" =>
      some { ifaceName := "SortedSet", implementation := "TreeSet",
             imports := ["java.util.SortedSet", "java.util.TreeSet"] }
  | "LinkedList" =>
      some { ifaceName := "List", implementation := "LinkedList",
             imports := ["java.util.List", "java.util.LinkedList"] }
  | _ => none

/-- GetCollectionInfo: unknown collection names fall back to the List entry. -/
def GetCollectionInfo (collectionType : String) : CollectionInfo :=
  match CollectionTypes collectionType with
  | some info => info
  | none =>
      { ifaceName := "List", implementation := "ArrayList",
        imports := ["java.util.List", "java.util.ArrayList"] }

/-- FormatCollectionType: renders the shape applied to an element type. -/
def FormatCollectionType (collectionType elementType : String) : String :=
  (GetCollectionInfo collectionType).ifaceName ++ "<" ++ elementType ++ ">"

/-- GetCollectionImports from the collections source. -/
def GetCollectionImports (collectionType : String) : List String :=
  (GetCollectionInfo collectionType).imports

/-- OptionalInfo from the collections source; `typeName` is the source field
`Type`. -/
structure OptionalInfo where
  typeName : String
  imports : List String
  deriving Repr, DecidableEq

/-- GetOptionalInfo from the collections source. -/
def GetOptionalInfo : OptionalInfo :=
  { typeName := "Optional", imports := ["java.util.Optional"] }

/-- FormatOptionalType from the collections source. -/
def FormatOptionalType (elementType : String) : String :=
  "Optional<" ++ BoxType elementType ++ ">"

/-! ## Configuration (internal/config/types.go, defaults.go)

The schema path settings and the Java-version override table are consumed
only by the configuration loader, outside the generation core, and are
omitted.  Naming: `interfacePfx` is the source field `InterfacePrefix`. -/

structure ScalarMapping where
  javaType : String
  imports : List String := []
  deriving Repr, DecidableEq

structure NamingConfig where
  fieldCase : String := ""
  classSuffix : String := ""
  interfacePfx : String := ""
  deriving Repr, DecidableEq

structure JavaConfig where
  version : Int := 0
  fieldVisibility : String := ""
  collectionType : String := ""
  nullableHandling : String := ""
  naming : NamingConfig := {}
  deriving Repr, DecidableEq

structure OutputConfig where
  directory : String := ""
  package_ : String := ""
  deriving Repr, DecidableEq

structure LombokConfig where
  enabled : Bool := false
  data : Bool := false
  builder : Bool := false
  noArgsConstructor : Bool := false
  allArgsConstructor : Bool := false
  getter : Bool := false
  setter : Bool := false
  deriving Repr, DecidableEq

structure ValidationConfig where
  enabled : Bool := false
  package_ : String := ""
  notNullOnNonNull : Bool := false
  deriving Repr, DecidableEq

structure FeaturesConfig where
  lombok : LombokConfig := {}
  validation : ValidationConfig := {}
  jacksonEnabled : Bool := false
  deriving Repr, DecidableEq

/-- Config; `scalarMappings` is the source field TypeMappings.Scalars (a Go
map from scalar name to mapping, modelled as an association list). -/
structure Config where
  output : OutputConfig := {}
  java : JavaConfig := {}
  scalarMappings : List (String × ScalarMapping) := []
  features : FeaturesConfig := {}
  deriving Repr, DecidableEq

/-- DefaultConfig from config/defaults.go (core-relevant fields). -/
def DefaultConfig : Config :=
  { output := { directory := "./generated", package_ := "com.example.model" }
    java := { version := 17, fieldVisibility := "private", collectionType := "List",
              nullableHandling := "wrapper",
              naming := { fieldCase := "camelCase", classSuffix := "", interfacePfx := "" } }
    scalarMappings := []
    features := { lombok := { enabled := false, data := true, builder := false,
                              noArgsConstructor := true, allArgsConstructor := false,
                              getter := false, setter := false }
                  validation := { enabled := false, package_ := "jakarta",
                                  notNullOnNonNull := true }
                  jacksonEnabled := false } }

/-! ## Parsed schema model (internal/parser/types.go)

The Go `TypeKind` is a string type with six declared constants; the core
treats it as a closed variant, modelled as an inductive.  Directive
argument values (`valueToInterface`) form a dynamic sum of string, 64-bit
integer, boolean, list, nested object and null; float arguments are not
consumed by any recognized directive extractor and are not modelled. -/

inductive TypeKind where
  | object
  | interface_
  | inputObject
  | enum_
  | union_
  | scalar
  deriving Repr, DecidableEq

inductive ArgValue where
  | str (s : String)
  | int (n : Int)
  | bool (b : Bool)
  | list (xs : List ArgValue)
  | obj (fields : List (String × ArgValue))
  | null
  deriving Repr

/-- DirectiveDef; `arguments` is the Go map from argument name to value. -/
structure DirectiveDef where
  name : String
  arguments : List (String × ArgValue) := []
  deriving Repr

/-- Association-list lookup modelling a Go map read. -/
def lookupArg : List (String × ArgValue) → String → Option ArgValue
  | [], _ => none
  | (k, v) :: rest, key => if k = key then some v else lookupArg rest key

/-- GetArgumentString from parser/types.go. -/
def DirectiveDef.GetArgumentString (d : DirectiveDef) (key : String) : String :=
  match lookupArg d.arguments key with
  | some (.str s) => s
  | _ => ""

/-- GetArgumentInt from parser/types.go (the int64 case; the float64
conversion case is never exercised by integer-valued schema literals). -/
def DirectiveDef.GetArgumentInt (d : DirectiveDef) (key : String) : Int × Bool :=
  match lookupArg d.arguments key with
  | some (.int n) => (n, true)
  | _ => (0, false)

/-- GetArgumentBool from parser/types.go. -/
def DirectiveDef.GetArgumentBool (d : DirectiveDef) (key : String) : Bool × Bool :=
  match lookupArg d.arguments key with
  | some (.bool b) => (b, true)
  | _ => (false, false)

/-- GetArgumentStringSlice from parser/types.go: keeps the string elements
of a list argument. -/
def DirectiveDef.GetArgumentStringSlice (d : DirectiveDef) (key : String) : List String :=
  match lookupArg d.arguments key with
  | some (.list xs) =>
      xs.filterMap fun v => match v with | .str s => some s | _ => none
  | _ => []

/-- TypeRef models the Go struct \x7bName string; Elem *TypeRef; NonNull
bool\x7d: `named` is the Elem-nil case, `list` carries the non-nil Elem
together with the (residual) Name field. -/
inductive TypeRef where
  | named (name : String) (nonNull : Bool)
  | list (name : String) (elem : TypeRef) (nonNull : Bool)
  deriving Repr, DecidableEq

def TypeRef.name : TypeRef → String
  | .named n _ => n
  | .list n _ _ => n

def TypeRef.nonNull : TypeRef → Bool
  | .named _ nn => nn
  | .list _ _ nn => nn

def TypeRef.elem : TypeRef → Option TypeRef
  | .named _ _ => none
  | .list _ e _ => some e

/-- IsList from parser/types.go: Elem is non-nil. -/
def TypeRef.IsList (t : TypeRef) : Bool :=
  t.elem.isSome

/-- NamedType from parser/types.go: the innermost named type. -/
def TypeRef.NamedType : TypeRef → String
  | .named n _ => n
  | .list _ e _ => e.NamedType

/-- FieldDef; `typ` is the Go field `Type *TypeRef` (nil-able).  Argument
definitions and default values are carried by the parser but never read by
the generation core, and are omitted. -/
structure FieldDef where
  name : String
  description : String := ""
  typ : Option TypeRef := none
  directives : List DirectiveDef := []
  deriving Repr

structure EnumValueDef where
  name : String
  description : String := ""
  directives : List DirectiveDef := []
  deriving Repr

structure TypeDef where
  name : String
  kind : TypeKind
  description : String := ""
  fields : List FieldDef := []
  enumValues : List EnumValueDef := []
  interfaces : List String := []
  directives : List DirectiveDef := []
  deriving Repr

/-! ## Directive extraction (internal/parser/directives.go) -/

structure SkipDirectiveInfo where
  applied : Bool
  deriving Repr, DecidableEq

/-- ExtractSkipDirective: first directive named `skip`. -/
def ExtractSkipDirective : List DirectiveDef → Option SkipDirectiveInfo
  | [] => none
  | d :: rest =>
      if d.name = "skip" then some { applied := true }
      else ExtractSkipDirective rest

/-- JavaNameDirectiveInfo from directives.go. -/
structure JavaNameInfo where
  name : String
  deriving Repr, DecidableEq

/-- ExtractJavaNameDirective: first `javaName` directive whose `name`
argument is non-empty (the source loop continues past empty names). -/
def ExtractJavaNameDirective : List DirectiveDef → Option JavaNameInfo
  | [] => none
  | d :: rest =>
      if d.name = "javaName" ∧ d.GetArgumentString "name" ≠ "" then
        some { name := d.GetArgumentString "name" }
      else ExtractJavaNameDirective rest

/-- JavaTypeDirectiveInfo from directives.go; `typeName` is the source
field `Type`. -/
structure JavaTypeInfo where
  typeName : String
  imports : List String := []
  deriving Repr, DecidableEq

/-- ExtractJavaTypeDirective: first `javaType` directive whose `type`
argument is non-empty. -/
def ExtractJavaTypeDirective : List DirectiveDef → Option JavaTypeInfo
  | [] => none
  | d :: rest =>
      if d.name = "javaType" ∧ d.GetArgumentString "type" ≠ "" then
        some { typeName := d.GetArgumentString "type",
               imports := d.GetArgumentStringSlice "imports" }
      else ExtractJavaTypeDirective rest

structure DeprecatedInfo where
  reason : String
  deriving Repr, DecidableEq

/-- ExtractDeprecatedDirective: first `deprecated` directive. -/
def ExtractDeprecatedDirective : List DirectiveDef → Option DeprecatedInfo
  | [] => none
  | d :: rest =>
      if d.name = "deprecated" then some { reason := d.GetArgumentString "reason" }
      else ExtractDeprecatedDirective rest

/-- AnnotationDirectiveInfo from directives.go. -/
structure AnnDirectiveInfo where
  value : String
  imports : List String := []
  deriving Repr, DecidableEq

/-- ExtractAnnotationDirectives: every `annotation` directive with a
non-empty `value` argument, in order. -/
def ExtractAnnotationDirectives : List DirectiveDef → List AnnDirectiveInfo
  | [] => []
  | d :: rest =>
      if d.name = "annotation" ∧ d.GetArgumentString "value" ≠ "" then
        { value := d.GetArgumentString "value",
          imports := d.GetArgumentStringSlice "imports" } :: ExtractAnnotationDirectives rest
      else ExtractAnnotationDirectives rest

/-- ConstraintDirectiveInfo from directives.go. -/
structure ConstraintInfo where
  minLength : Option Int := none
  maxLength : Option Int := none
  min : Option Int := none
  max : Option Int := none
  pattern : String := ""
  notNull : Bool := false
  notBlank : Bool := false
  email : Bool := false
  deriving Repr, DecidableEq

/-- optionalIntArg models the `if v, ok := GetArgumentInt(...); ok` pattern. -/
def optionalIntArg (d : DirectiveDef) (key : String) : Option Int :=
  let r := d.GetArgumentInt key
  if r.2 then some r.1 else none

/-- ExtractConstraintDirective: first `constraint` directive, all present
facets decoded (absent facets degrade to the zero value). -/
def ExtractConstraintDirective : List DirectiveDef → Option ConstraintInfo
  | [] => none
  | d :: rest =>
      if d.name = "constraint" then
        some { minLength := optionalIntArg d "minLength"
               maxLength := optionalIntArg d "maxLength"
               min := optionalIntArg d "min"
               max := optionalIntArg d "max"
               pattern := d.GetArgumentString "pattern"
               notNull := (d.GetArgumentBool "notNull").1
               notBlank := (d.GetArgumentBool "notBlank").1
               email := (d.GetArgumentBool "email").1 }
      else ExtractConstraintDirective rest

/-- LombokDirectiveInfo; `excl`/`incl` are the source fields
Exclude/Include. -/
structure LombokDirectiveInfo where
  excl : List String := []
  incl : List String := []
  deriving Repr, DecidableEq

/-- ExtractLombokDirective: first `lombok` directive. -/
def ExtractLombokDirective : List DirectiveDef → Option LombokDirectiveInfo
  | [] => none
  | d :: rest =>
      if d.name = "lombok" then
        some { excl := d.GetArgumentStringSlice "exclude",
               incl := d.GetArgumentStringSlice "include" }
      else ExtractLombokDirective rest

/-- CollectionDirectiveInfo; `typeName` is the source field `Type`. -/
structure CollectionDirectiveInfo where
  typeName : String
  deriving Repr, DecidableEq

/-- ExtractCollectionDirective: first `collection` directive with a
non-empty `type` argument. -/
def ExtractCollectionDirective : List DirectiveDef → Option CollectionDirectiveInfo
  | [] => none
  | d :: rest =>
      if d.name = "collection" ∧ d.GetArgumentString "type" ≠ "" then
        some { typeName := d.GetArgumentString "type" }
      else ExtractCollectionDirective rest

/-! ## Errors (internal/errors/errors.go, the kinds reachable from the
generation core) -/

inductive GenError where
  | typeMapping (message : String) (cause : Option GenError) (sourceType : String)
  | generate (message : String) (cause : Option GenError) (typeName : String) (fieldName : String)
  deriving Repr

/-! ## Type mapper (internal/typemap/mapper.go) -/

/-- MapResult from mapper.go. -/
structure MapResult where
  javaType : String := ""
  imports : List String := []
  isPrimitive : Bool := false
  isCollection : Bool := false
  isOptional : Bool := false
  elementType : String := ""
  deriving Repr, DecidableEq

/-- TypeMapper state: configuration, the custom scalar table loaded from
configuration, and the schema type registry. -/
structure TypeMapper where
  config : Config
  customScalars : List (String × ScalarInfo)
  schemaTypes : List (String × TypeDef)

/-- Association-list lookup modelling a Go map read of the scalar tables. -/
def lookupScalar : List (String × ScalarInfo) → String → Option ScalarInfo
  | [], _ => none
  | (k, v) :: rest, key => if k = key then some v else lookupScalar rest key

/-- Association-list lookup modelling a Go map read of the type registry. -/
def lookupType : List (String × TypeDef) → String → Option TypeDef
  | [], _ => none
  | (k, v) :: rest, key => if k = key then some v else lookupType rest key

/-- NewTypeMapper combined with SetSchemaTypes: the custom scalar table is
loaded from the configuration's scalar mappings (PrimitiveType is never
set for config-loaded scalars). -/
def NewTypeMapper (cfg : Config) (schemaTypes : List (String × TypeDef)) : TypeMapper :=
  { config := cfg
    customScalars :=
      cfg.scalarMappings.map fun p => (p.1, { javaType := p.2.javaType, imports := p.2.imports })
    schemaTypes := schemaTypes }

/-- getJavaTypeName from mapper.go: javaName directive wins, else
kind-specific decoration from the naming configuration. -/
def getJavaTypeName (tm : TypeMapper) (td : TypeDef) : String :=
  match ExtractJavaNameDirective td.directives with
  | some j => j.name
  | none =>
      match td.kind with
      | .interface_ =>
          if tm.config.java.naming.interfacePfx ≠ "" then
            tm.config.java.naming.interfacePfx ++ td.name
          else td.name
      | .object =>
          if tm.config.java.naming.classSuffix ≠ "" then
            td.name ++ tm.config.java.naming.classSuffix
          else td.name
      | .inputObject =>
          if tm.config.java.naming.classSuffix ≠ "" then
            td.name ++ tm.config.java.naming.classSuffix
          else td.name
      | _ => td.name

/-- mapNamedType from mapper.go: custom scalars from configuration, then
built-in scalars, then common scalars, then the schema type registry, then
opaque pass-through. -/
def mapNamedType (tm : TypeMapper) (name : String) : Except GenError MapResult :=
  match lookupScalar tm.customScalars name with
  | some scalar =>
      .ok { javaType := scalar.javaType, imports := scalar.imports,
            isPrimitive := scalar.primitiveType ≠ "" }
  | none =>
      match BuiltinScalars name with
      | some scalar =>
          .ok { javaType := scalar.javaType, imports := scalar.imports, isPrimitive := false }
      | none =>
          match CommonScalars name with
          | some scalar =>
              .ok { javaType := scalar.javaType, imports := scalar.imports, isPrimitive := false }
          | none =>
              match lookupType tm.schemaTypes name with
              | some typeDef => .ok { javaType := getJavaTypeName tm typeDef }
              | none => .ok { javaType := name }

/-- applyNullability from mapper.go: switch on the nullable-handling
string; `wrapper` shares the Go default branch. -/
def applyNullability (tm : TypeMapper) (result : MapResult) : MapResult :=
  if tm.config.java.nullableHandling = "optional" then
    let javaType := if result.isPrimitive then BoxType result.javaType else result.javaType
    { result with javaType := FormatOptionalType javaType,
                  imports := result.imports ++ GetOptionalInfo.imports,
                  isOptional := true, isPrimitive := false }
  else if tm.config.java.nullableHandling = "annotation" then
    if result.isPrimitive then
      { result with javaType := BoxType result.javaType, isPrimitive := false }
    else result
  else
    if result.isPrimitive then
      { result with javaType := BoxType result.javaType, isPrimitive := false }
    else result

/-- mapTypeInternal from mapper.go.  The list branch returns before the
nullability and primitive-preference steps, exactly as the source does. -/
def mapTypeInternal (tm : TypeMapper) : TypeRef → Bool → Except GenError MapResult
  | .list _ elem _, _ =>
      match mapTypeInternal tm elem false with
      | .error err =>
          .error (.typeMapping "failed to map list element type" (some err) elem.name)
      | .ok elemResult =>
          let elemType :=
            if elemResult.isPrimitive then BoxType elemResult.javaType else elemResult.javaType
          let collectionType := tm.config.java.collectionType
          let collectionInfo := GetCollectionInfo collectionType
          .ok { javaType := FormatCollectionType collectionType elemType,
                imports := collectionInfo.imports ++ elemResult.imports,
                isCollection := true, elementType := elemType }
  | .named name nonNull, topLevel =>
      match mapNamedType tm name with
      | .error err =>
          .error (.typeMapping "failed to map named type" (some err) name)
      | .ok result =>
          let result := if topLevel ∧ ¬ nonNull then applyNullability tm result else result
          let result :=
            if topLevel ∧ nonNull then
              match BuiltinScalars name with
              | some scalar =>
                  if scalar.primitiveType ≠ "" then
                    { result with javaType := scalar.primitiveType, isPrimitive := true }
                  else result
              | none => result
            else result
          .ok result

/-- MapType from mapper.go: a nil reference maps to the generic Object
fallback. -/
def MapType (tm : TypeMapper) : Option TypeRef → Except GenError MapResult
  | none => .ok { javaType := "Object" }
  | some typeRef => mapTypeInternal tm typeRef true

/-- getElementImports from mapper.go. -/
def getElementImports (tm : TypeMapper) (elementType : String) : List String :=
  match lookupScalar tm.customScalars elementType with
  | some scalar => scalar.imports
  | none =>
      match CommonScalars elementType with
      | some scalar => scalar.imports
      | none => []

/-- MapFieldType from mapper.go: javaType directive short-circuits; a
collection directive re-applies the shape after the base mapping. -/
def MapFieldType (tm : TypeMapper) (field : FieldDef) : Except GenError MapResult :=
  match ExtractJavaTypeDirective field.directives with
  | some j => .ok { javaType := j.typeName, imports := j.imports }
  | none =>
      let collectionOverride := ExtractCollectionDirective field.directives
      match MapType tm field.typ with
      | .error e => .error e
      | .ok result =>
          match collectionOverride with
          | some co =>
              if result.isCollection then
                let collectionInfo := GetCollectionInfo co.typeName
                .ok { result with
                      javaType := FormatCollectionType co.typeName result.elementType,
                      imports := collectionInfo.imports ++ getElementImports tm result.elementType }
              else .ok result
          | none => .ok result

/-- The recursive body of ValidateMapping over a non-nil reference. -/
def validateMappingRef (tm : TypeMapper) : TypeRef → Option GenError
  | .list _ elem _ => validateMappingRef tm elem
  | .named name _ =>
      if (lookupScalar tm.customScalars name).isSome then none
      else if (BuiltinScalars name).isSome then none
      else if (CommonScalars name).isSome then none
      else if (lookupType tm.schemaTypes name).isSome then none
      else some (.typeMapping "unknown type, will use as-is" none name)

/-- ValidateMapping from mapper.go: non-fatal unresolved-name reporting. -/
def ValidateMapping (tm : TypeMapper) : Option TypeRef → Option GenError
  | none => none
  | some t => validateMappingRef tm t

/-! ## Naming helper (generator naming source)

Character-level case conversion works on String.data; `asciiToLower` and
`asciiToUpper` model unicode.ToLower/ToUpper restricted to ASCII. -/

def asciiToLower (c : Char) : Char :=
  if 65 ≤ c.toNat ∧ c.toNat ≤ 90 then Char.ofNat (c.toNat + 32) else c

def asciiToUpper (c : Char) : Char :=
  if 97 ≤ c.toNat ∧ c.toNat ≤ 122 then Char.ofNat (c.toNat - 32) else c

def lowerL (l : List Char) : List Char :=
  l.map asciiToLower

/-- capitalizeFirst on character lists. -/
def capitalizeFirstL : List Char → List Char
  | [] => []
  | c :: cs => asciiToUpper c :: cs

/-- capitalizeFirst from the naming source. -/
def capitalizeFirst (s : String) : String :=
  ⟨capitalizeFirstL s.data⟩

/-- splitChar models strings.Split with a one-character separator. -/
def splitChar (sep : Char) : List Char → List (List Char)
  | [] => [[]]
  | c :: cs =>
      if c = sep then [] :: splitChar sep cs
      else
        match splitChar sep cs with
        | [] => [[c]]
        | p :: ps => (c :: p) :: ps

/-- toCamelCase on character lists: underscore-separated parts are lowered
and capitalized after the first, empty parts are dropped; otherwise only
the first character is lowered. -/
def toCamelCaseL (l : List Char) : List Char :=
  if l = [] then []
  else if '_' ∈ l then
    match splitChar '_' l with
    | [] => []
    | p :: ps =>
        lowerL p ++
          (ps.map fun q => if q = [] then [] else capitalizeFirstL (lowerL q)).flatten
  else
    match l with
    | [] => []
    | c :: cs => asciiToLower c :: cs

/-- toCamelCase from the naming source. -/
def toCamelCase (s : String) : String :=
  ⟨toCamelCaseL s.data⟩

def isUpperAscii (c : Char) : Bool :=
  65 ≤ c.toNat ∧ c.toNat ≤ 90

/-- toSnakeCase on character lists; the boolean marks the first position
(no underscore before an uppercase first character). -/
def toSnakeCaseL : Bool → List Char → List Char
  | _, [] => []
  | first, c :: cs =>
      if isUpperAscii c then
        (if first then [asciiToLower c] else ['_', asciiToLower c]) ++ toSnakeCaseL false cs
      else c :: toSnakeCaseL false cs

/-- toSnakeCase from the naming source. -/
def toSnakeCase (s : String) : String :=
  ⟨toSnakeCaseL true s.data⟩

/-- IsJavaKeyword from the naming source. -/
def IsJavaKeyword (word : String) : Bool :=
  match word with
  | "abstract" | "assert" | "boolean" | "break"
  | "byte" | "case" | "catch" | "char"
  | "class" | "const" | "continue" | "default"
  | "do" | "double" | "else" | "enum"
  | "extends" | "final" | "finally" | "float"
  | "for" | "goto" | "if" | "implements"
  | "import" | "instanceof" | "int" | "interface"
  | "long" | "native" | "new" | "package"
  | "private" | "protected" | "public" | "return"
  | "short" | "static" | "strictfp" | "super"
  | "switch" | "synchronized" | "this" | "throw"
  | "throws" | "transient" | "try" | "void"
  | "volatile" | "while" | "true" | "false"
  | "null" | "var" | "yield" | "record"
  | "sealed" | "permits" | "non-sealed" => true
  | _ => false

/-- EscapeJavaKeyword from the naming source. -/
def EscapeJavaKeyword (name : String) : String :=
  if IsJavaKeyword name then "_" ++ name else name

/-- GetTypeName from the naming source (same decoration logic as the
mapper's getJavaTypeName, duplicated in the source). -/
def GetTypeName (naming : NamingConfig) (td : TypeDef) : String :=
  match ExtractJavaNameDirective td.directives with
  | some j => j.name
  | none =>
      match td.kind with
      | .interface_ =>
          if naming.interfacePfx ≠ "" then naming.interfacePfx ++ td.name else td.name
      | .object =>
          if naming.classSuffix ≠ "" then td.name ++ naming.classSuffix else td.name
      | .inputObject =>
          if naming.classSuffix ≠ "" then td.name ++ naming.classSuffix else td.name
      | _ => td.name

/-- GetFieldName from the naming source: javaName directive wins, else the
configured case conversion (`camelCase` shares the Go default branch). -/
def GetFieldName (naming : NamingConfig) (field : FieldDef) : String :=
  match ExtractJavaNameDirective field.directives with
  | some j => j.name
  | none =>
      if naming.fieldCase = "snake_case" then toSnakeCase field.name
      else toCamelCase field.name

/-- GetEnumValueName from the naming source. -/
def GetEnumValueName (enumValue : EnumValueDef) : String :=
  match ExtractJavaNameDirective enumValue.directives with
  | some j => j.name
  | none => enumValue.name

/-- GetGetterName from the naming source: boolean fields get an `is`
prefix unless the lowercased field name already starts with `is`. -/
def GetGetterName (fieldName : String) (isBoolean : Bool) : String :=
  let pfx :=
    if isBoolean then
      if ['i', 's'].isPrefixOf (lowerL fieldName.data) then "get" else "is"
    else "get"
  pfx ++ capitalizeFirst fieldName

/-- GetSetterName from the naming source. -/
def GetSetterName (fieldName : String) : String :=
  "set" ++ capitalizeFirst fieldName

def isLowerAscii (c : Char) : Bool :=
  97 ≤ c.toNat ∧ c.toNat ≤ 122

def isDigitAscii (c : Char) : Bool :=
  48 ≤ c.toNat ∧ c.toNat ≤ 57

/-- A snake_case identifier: non-empty, beginning with a lowercase ASCII
letter, built from lowercase letters, digits and underscores. -/
def isSnakeIdent : List Char → Bool
  | [] => false
  | c :: cs =>
      isLowerAscii c && (c :: cs).all fun x => isLowerAscii x || isDigitAscii x || x = '_'

/-! ## Lombok annotation generator (internal/annotations/lombok.go) -/

/-- LombokAnnotations from lombok.go: facet name to (annotation text,
required import). -/
def LombokAnnotations : String → Option (String × String)
  | "data" => some ("@Data", "lombok.Data")
  | "builder" => some ("@Builder", "lombok.Builder")
  | "noArgsConstructor" => some ("@NoArgsConstructor", "lombok.NoArgsConstructor")
  | "allArgsConstructor" => some ("@AllArgsConstructor", "lombok.AllArgsConstructor")
  | "getter" => some ("@Getter", "lombok.Getter")
  | "setter" => some ("@Setter", "lombok.Setter")
  | "toString" => some ("@ToString", "lombok.ToString")
  | "equalsAndHashCode" => some ("@EqualsAndHashCode", "lombok.EqualsAndHashCode")
  | "value" => some ("@Value", "lombok.Value")
  | "superBuilder" => some ("@SuperBuilder", "lombok.experimental.SuperBuilder")
  | _ => none

/-- mapSet models a Go map write: replace the binding if the key exists,
append it otherwise. -/
def mapSet : List (String × Bool) → String → Bool → List (String × Bool)
  | [], k, v => [(k, v)]
  | (k₁, v₁) :: rest, k, v =>
      if k₁ = k then (k, v) :: rest else (k₁, v₁) :: mapSet rest k v

/-- Association-list lookup modelling a Go map read of the facet map. -/
def lookupFacet : List (String × Bool) → String → Option Bool
  | [], _ => none
  | (k, v) :: rest, key => if k = key then some v else lookupFacet rest key

/-- getEnabledAnnotations from lombok.go: configured per-facet defaults,
then every excluded facet set to false, then every included facet set to
true. -/
def getEnabledAnnotations (cfg : LombokConfig) (directive : Option LombokDirectiveInfo) :
    List (String × Bool) :=
  let enabled :=
    [("data", cfg.data), ("builder", cfg.builder),
     ("noArgsConstructor", cfg.noArgsConstructor),
     ("allArgsConstructor", cfg.allArgsConstructor),
     ("getter", cfg.getter), ("setter", cfg.setter)]
  match directive with
  | none => enabled
  | some d =>
      let afterExclude := d.excl.foldl (fun m x => mapSet m x false) enabled
      d.incl.foldl (fun m x => mapSet m x true) afterExclude

/-- GenerateTypeAnnotations from lombok.go (map iteration fixed to the
deterministic list order). -/
def lombokTypeAnns (cfg : LombokConfig) (td : TypeDef) : List String × List String :=
  if ¬ cfg.enabled then ([], [])
  else
    let directive := ExtractLombokDirective td.directives
    let enabled := getEnabledAnnotations cfg directive
    enabled.foldl
      (fun (acc : List String × List String) p =>
        if p.2 then
          match LombokAnnotations p.1 with
          | some ann => (acc.1 ++ [ann.1], acc.2 ++ [ann.2])
          | none => acc
        else acc)
      ([], [])

/-- NeedsGettersSetters from lombok.go. -/
def NeedsGettersSetters (cfg : LombokConfig) : Bool :=
  if ¬ cfg.enabled then true
  else if cfg.data then false
  else ¬ cfg.getter ∨ ¬ cfg.setter

/-- NeedsConstructors from lombok.go. -/
def NeedsConstructors (cfg : LombokConfig) : Bool :=
  if ¬ cfg.enabled then true
  else ¬ cfg.noArgsConstructor ∧ ¬ cfg.allArgsConstructor

/-! ## Validation annotation generator (internal/annotations/validation.go) -/

/-- GetValidationPackage from validation.go (`jakarta` shares the Go
default branch). -/
def GetValidationPackage (cfg : ValidationConfig) : String :=
  if cfg.package_ = "javax" then "javax.validation.constraints"
  else "jakarta.validation.constraints"

/-- escapeQuotes models strings.ReplaceAll(pattern, quote, backslash-quote). -/
def escapeQuotes (s : String) : String :=
  ⟨(s.data.map fun c => if c = '"' then ['\\', '"'] else [c]).flatten⟩

/-- generateConstraintAnnotations from validation.go. -/
def generateConstraintAnns (c : ConstraintInfo) (basePkg : String) :
    List String × List String :=
  let sizePart :
      List String × List String :=
    if c.minLength.isSome ∨ c.maxLength.isSome then
      let params :=
        (match c.minLength with
         | some n => ["min = " ++ toString n]
         | none => []) ++
        (match c.maxLength with
         | some n => ["max = " ++ toString n]
         | none => [])
      (["@Size(" ++ String.intercalate ", " params ++ ")"], [basePkg ++ ".Size"])
    else ([], [])
  let minPart : List String × List String :=
    match c.min with
    | some n => (["@Min(" ++ toString n ++ ")"], [basePkg ++ ".Min"])
    | none => ([], [])
  let maxPart : List String × List String :=
    match c.max with
    | some n => (["@Max(" ++ toString n ++ ")"], [basePkg ++ ".Max"])
    | none => ([], [])
  let patternPart : List String × List String :=
    if c.pattern ≠ "" then
      (["@Pattern(regexp = \"" ++ escapeQuotes c.pattern ++ "\")"], [basePkg ++ ".Pattern"])
    else ([], [])
  let notNullPart : List String × List String :=
    if c.notNull then (["@NotNull"], [basePkg ++ ".NotNull"]) else ([], [])
  let notBlankPart : List String × List String :=
    if c.notBlank then (["@NotBlank"], [basePkg ++ ".NotBlank"]) else ([], [])
  let emailPart : List String × List String :=
    if c.email then (["@Email"], [basePkg ++ ".Email"]) else ([], [])
  (sizePart.1 ++ minPart.1 ++ maxPart.1 ++ patternPart.1 ++ notNullPart.1 ++
     notBlankPart.1 ++ emailPart.1,
   sizePart.2 ++ minPart.2 ++ maxPart.2 ++ patternPart.2 ++ notNullPart.2 ++
     notBlankPart.2 ++ emailPart.2)

/-- GenerateFieldAnnotations from validation.go. -/
def validationFieldAnns (cfg : ValidationConfig) (field : FieldDef) (nonNull : Bool) :
    List String × List String :=
  if ¬ cfg.enabled then ([], [])
  else
    let basePkg := GetValidationPackage cfg
    let notNullPart : List String × List String :=
      if nonNull ∧ cfg.notNullOnNonNull then (["@NotNull"], [basePkg ++ ".NotNull"])
      else ([], [])
    match ExtractConstraintDirective field.directives with
    | some c =>
        let constraintPart := generateConstraintAnns c basePkg
        (notNullPart.1 ++ constraintPart.1, notNullPart.2 ++ constraintPart.2)
    | none => notNullPart

/-- GenerateTypeAnnotations from validation.go (not implemented in the
source: always empty). -/
def validationTypeAnns (_td : TypeDef) : List String × List String :=
  ([], [])

/-! ## Custom annotation generator (internal/annotations custom source) -/

/-- extractAnnotations: annotation directive values and their imports, in
order. -/
def extractAnns (directives : List DirectiveDef) : List String × List String :=
  let infos := ExtractAnnotationDirectives directives
  (infos.map (·.value), (infos.map (·.imports)).flatten)

/-- GenerateDeprecatedAnnotation: the fixed `@Deprecated` marker (its
associated import slot is always empty). -/
def generateDeprecatedAnn (directives : List DirectiveDef) : String × String :=
  match ExtractDeprecatedDirective directives with
  | none => ("", "")
  | some _ => ("@Deprecated", "")

/-! ## Import manager (internal/generator/imports.go)

The Go set `map[string]bool` is modelled as a duplicate-free list; Add is
idempotent, and GetSorted sorts the set, so the model and the source agree
on every observable output. -/

/-- isJavaLangDirect: a direct java.lang import (prefix `java.lang.` with
no further dot). -/
def isJavaLangDirect (imp : String) : Bool :=
  "java.lang.".data.isPrefixOf imp.data && !((imp.data.drop 10).contains '.')

/-- beforeLastDot: the characters strictly before the last dot, if any
(models strings.LastIndex-based prefix extraction). -/
def beforeLastDot (l : List Char) : Option (List Char) :=
  if '.' ∈ l then some ((l.reverse.dropWhile (fun c => c ≠ '.')).tail.reverse)
  else none

/-- packageOf: the package segment of an import path (text before the
last dot), if the path has one. -/
def packageOf (imp : String) : Option String :=
  (beforeLastDot imp.data).map fun l => (⟨l⟩ : String)

structure ImportManager where
  imports : List String
  package_ : String
  deriving Repr, DecidableEq

def NewImportManager (pkg : String) : ImportManager :=
  { imports := [], package_ := pkg }

/-- samePkg: the package-level core of isSamePackage (an empty configured
package never matches; an import without a dot has no package). -/
def samePkg (pkg imp : String) : Bool :=
  if pkg = "" then false
  else
    match beforeLastDot imp.data with
    | none => false
    | some l => (⟨l⟩ : String) = pkg

/-- isSamePackage from imports.go. -/
def ImportManager.isSamePackage (m : ImportManager) (imp : String) : Bool :=
  samePkg m.package_ imp

/-- Add from imports.go: empty, direct java.lang and same-package imports
are dropped; insertion is idempotent. -/
def ImportManager.Add (m : ImportManager) (imp : String) : ImportManager :=
  if imp = "" then m
  else if isJavaLangDirect imp then m
  else if m.isSamePackage imp then m
  else if imp ∈ m.imports then m
  else { m with imports := m.imports ++ [imp] }

/-- AddAll from imports.go. -/
def ImportManager.AddAll (m : ImportManager) (imps : List String) : ImportManager :=
  imps.foldl ImportManager.Add m

/-- GetSorted from imports.go: the accumulated set in lexicographic
order. -/
def ImportManager.GetSorted (m : ImportManager) : List String :=
  m.imports.insertionSort (· ≤ ·)

/-- getImportPfx (source getImportPrefix): the first two dot-separated
segments. -/
def getImportPfx (imp : String) : String :=
  match splitChar '.' imp.data with
  | a :: b :: _ => (⟨a⟩ : String) ++ "." ++ (⟨b⟩ : String)
  | [a] => (⟨a⟩ : String)
  | [] => ""

/-- groupLoop: the grouping loop of GetGrouped with its accumulators made
explicit (emitted groups, current group, current prefix). -/
def groupLoop : List String → List (List String) → List String → String → List (List String)
  | [], groups, cur, _ => if cur = [] then groups else groups ++ [cur]
  | imp :: rest, groups, cur, curPfx =>
      let pfx := getImportPfx imp
      if curPfx ≠ "" ∧ pfx ≠ curPfx then
        groupLoop rest (if cur = [] then groups else groups ++ [cur]) [imp] pfx
      else
        groupLoop rest groups (cur ++ [imp]) pfx

/-- GetGrouped from imports.go. -/
def ImportManager.GetGrouped (m : ImportManager) : List (List String) :=
  groupLoop m.GetSorted [] [] ""

/-- GenerateImportBlock from imports.go: one `import X;` line per entry,
a blank line between groups. -/
def ImportManager.GenerateImportBlock (m : ImportManager) : String :=
  let groups := m.GetGrouped
  if groups = [] then ""
  else
    groups.enum.foldl
      (fun acc p =>
        let txt := p.2.foldl (fun a imp => a ++ "import " ++ imp ++ ";\n") ""
        acc ++ txt ++ (if p.1 < groups.length - 1 then "\n" else ""))
      ""

/-! ## Generation context (generator context source) -/

/-- Context bundles the per-run configuration and the schema type
registry; the mapper and helpers are functions of these. -/
structure Context where
  config : Config
  schemaTypes : List (String × TypeDef)

def ctxMapper (ctx : Context) : TypeMapper :=
  NewTypeMapper ctx.config ctx.schemaTypes

/-- GetVisibility from the context source (`private` shares the Go default
branch). -/
def GetVisibility (cfg : Config) : String :=
  if cfg.java.fieldVisibility = "protected" then "protected"
  else if cfg.java.fieldVisibility = "package" then ""
  else if cfg.java.fieldVisibility = "public" then "public"
  else "private"

/-- FieldContext from the context source. -/
structure FieldContext where
  field : FieldDef
  fieldName : String
  javaType : String
  imports : List String
  isNonNull : Bool
  deriving Repr

/-- NewFieldContext from the context source: keyword-escaped field name
plus the field's type mapping. -/
def NewFieldContext (ctx : Context) (field : FieldDef) : Except GenError FieldContext :=
  let fieldName := EscapeJavaKeyword (GetFieldName ctx.config.java.naming field)
  match MapFieldType (ctxMapper ctx) field with
  | .error e => .error e
  | .ok r =>
      .ok { field := field, fieldName := fieldName, javaType := r.javaType,
            imports := r.imports,
            isNonNull := match field.typ with | some t => t.nonNull | none => false }

/-- FieldContext.ShouldSkip from the context source: skip directive, or an
introspection-only (double-underscore) innermost named type. -/
def fieldShouldSkip (fc : FieldContext) : Bool :=
  if (ExtractSkipDirective fc.field.directives).isSome then true
  else
    match fc.field.typ with
    | some t => (t.NamedType.data.take 2) == ['_', '_']
    | none => false

/-- IsBooleanType from the context source. -/
def IsBooleanType (fc : FieldContext) : Bool :=
  fc.javaType == "boolean" || fc.javaType == "Boolean"

/-! ## Javadoc and field rendering (generator field source) -/

def isSpaceChar (c : Char) : Bool :=
  c = ' ' ∨ c = '\t' ∨ c = '\n' ∨ c = '\r' ∨ c.toNat = 11 ∨ c.toNat = 12

/-- trimSpace models strings.TrimSpace on ASCII whitespace. -/
def trimSpace (s : String) : String :=
  ⟨((s.data.dropWhile isSpaceChar).reverse.dropWhile isSpaceChar).reverse⟩

/-- splitLines models strings.Split(description, newline). -/
def splitLines (s : String) : List String :=
  (splitChar '\n' s.data).map fun l => (⟨l⟩ : String)

/-- generateJavadoc with an indent; the type-level variants use the empty
indent and the field/enum-value variants use four spaces. -/
def generateJavadocIndent (indent : String) (description : String) : String :=
  indent ++ "/**\n" ++
    String.join ((splitLines description).map fun line => indent ++ " * " ++ trimSpace line ++ "\n") ++
    indent ++ " */\n"

/-- GenerateField from the field source: description, deprecation,
validation and custom annotations, then the declaration; imports flow into
the accumulator. -/
def generateFieldTxt (cfg : Config) (fc : FieldContext) (im : ImportManager) :
    String × ImportManager :=
  let im1 := im.AddAll fc.imports
  let doc :=
    if fc.field.description ≠ "" then generateJavadocIndent "    " fc.field.description else ""
  let dep := generateDeprecatedAnn fc.field.directives
  let depList := if dep.1 ≠ "" then [dep.1] else []
  let validation := validationFieldAnns cfg.features.validation fc.field fc.isNonNull
  let im2 := im1.AddAll validation.2
  let custom := extractAnns fc.field.directives
  let im3 := im2.AddAll custom.2
  let annTxt :=
    String.join ((depList ++ validation.1 ++ custom.1).map fun ann => "    " ++ ann ++ "\n")
  let vis := GetVisibility cfg
  let visTxt := if vis ≠ "" then "    " ++ vis ++ " " else "    "
  (doc ++ annTxt ++ visTxt ++ fc.javaType ++ " " ++ fc.fieldName ++ ";\n", im3)

/-- GenerateGetter from the field source. -/
def generateGetterTxt (fc : FieldContext) : String :=
  "    public " ++ fc.javaType ++ " " ++ GetGetterName fc.fieldName (IsBooleanType fc) ++
    "() \x7b\n        return this." ++ fc.fieldName ++ ";\n    \x7d\n"

/-- GenerateSetter from the field source. -/
def generateSetterTxt (fc : FieldContext) : String :=
  "    public void " ++ GetSetterName fc.fieldName ++ "(" ++ fc.javaType ++ " " ++
    fc.fieldName ++ ") \x7b\n        this." ++ fc.fieldName ++ " = " ++ fc.fieldName ++
    ";\n    \x7d\n"

/-! ## Class generator (internal/generator/class.go) -/

/-- generateClassAnnotations from class.go: deprecation, lombok,
validation, custom; annotation imports flow into the accumulator. -/
def generateClassAnns (ctx : Context) (td : TypeDef) (im : ImportManager) :
    List String × ImportManager :=
  let dep := generateDeprecatedAnn td.directives
  let depList := if dep.1 ≠ "" then [dep.1] else []
  let lombok := lombokTypeAnns ctx.config.features.lombok td
  let im1 := im.AddAll lombok.2
  let validation := validationTypeAnns td
  let im2 := im1.AddAll validation.2
  let custom := extractAnns td.directives
  let im3 := im2.AddAll custom.2
  (depList ++ lombok.1 ++ validation.1 ++ custom.1, im3)

/-- The implements clause of class.go with interface-name decoration. -/
def implementsClause (ctx : Context) (interfaces : List String) : String :=
  if interfaces = [] then ""
  else
    " implements " ++
      String.intercalate ", "
        (interfaces.map fun iface =>
          if ctx.config.java.naming.interfacePfx ≠ "" then
            ctx.config.java.naming.interfacePfx ++ iface
          else iface)

/-- The field loop of ClassGenerator.Generate: context creation (errors
wrapped with type and field names), skip filtering, field rendering and
the list of retained field contexts. -/
def classFields (ctx : Context) (typeName : String) :
    List FieldDef → String → List FieldContext → ImportManager →
    Except GenError (String × List FieldContext × ImportManager)
  | [], acc, fcs, im => .ok (acc, fcs, im)
  | field :: rest, acc, fcs, im =>
      match NewFieldContext ctx field with
      | .error e =>
          .error (.generate "failed to create field context" (some e) typeName field.name)
      | .ok fc =>
          if fieldShouldSkip fc then classFields ctx typeName rest acc fcs im
          else
            let r := generateFieldTxt ctx.config fc im
            classFields ctx typeName rest (acc ++ r.1 ++ "\n") (fcs ++ [fc]) r.2

/-- ClassGenerator.Generate from class.go: skip check, package line,
annotations, javadoc, declaration with implements clause, fields, then
conditional getters/setters, with the import block spliced in after the
package line once the body is complete. -/
def classGenerate (ctx : Context) (td : TypeDef) : Except GenError String :=
  let typeName := GetTypeName ctx.config.java.naming td
  if (ExtractSkipDirective td.directives).isSome then .ok ""
  else
    let packageDecl := "package " ++ ctx.config.output.package_ ++ ";\n\n"
    let im0 := NewImportManager ctx.config.output.package_
    let anns := generateClassAnns ctx td im0
    let doc := if td.description ≠ "" then generateJavadocIndent "" td.description else ""
    let annsTxt := String.join (anns.1.map (· ++ "\n"))
    let header := "public class " ++ typeName ++ implementsClause ctx td.interfaces ++ " \x7b\n\n"
    match classFields ctx td.name td.fields "" [] anns.2 with
    | .error e => .error e
    | .ok (fieldsTxt, fcs, im2) =>
        let accessors :=
          if NeedsGettersSetters ctx.config.features.lombok ∧ fcs.length > 0 then
            String.join
              (fcs.map fun fc => generateGetterTxt fc ++ "\n" ++ generateSetterTxt fc ++ "\n")
          else ""
        let body := doc ++ annsTxt ++ header ++ fieldsTxt ++ accessors ++ "\x7d\n"
        let importBlock := im2.GenerateImportBlock
        .ok (packageDecl ++ (if importBlock ≠ "" then importBlock ++ "\n" else "") ++ body)

/-! ## Interface generator (generator interface source) -/

/-- GenerateInterfaceMethod from the field source: skip filtering, the
field's imports, javadoc, deprecation marker and the getter signature. -/
def interfaceMethodTxt (ctx : Context) (field : FieldDef) (im : ImportManager) :
    Except GenError (String × ImportManager) :=
  match NewFieldContext ctx field with
  | .error e => .error e
  | .ok fc =>
      if fieldShouldSkip fc then .ok ("", im)
      else
        let im1 := im.AddAll fc.imports
        let doc :=
          if field.description ≠ "" then generateJavadocIndent "    " field.description else ""
        let dep := generateDeprecatedAnn field.directives
        let depTxt := if dep.1 ≠ "" then "    " ++ dep.1 ++ "\n" else ""
        .ok (doc ++ depTxt ++ "    " ++ fc.javaType ++ " " ++
               GetGetterName fc.fieldName (IsBooleanType fc) ++ "();\n",
             im1)

/-- The method loop of InterfaceGenerator.Generate (empty method text is
not emitted; errors are wrapped with type and field names). -/
def interfaceMethods (ctx : Context) (typeName : String) :
    List FieldDef → String → ImportManager → Except GenError (String × ImportManager)
  | [], acc, im => .ok (acc, im)
  | field :: rest, acc, im =>
      match interfaceMethodTxt ctx field im with
      | .error e =>
          .error (.generate "failed to generate interface method" (some e) typeName field.name)
      | .ok (methodCode, im1) =>
          if methodCode ≠ "" then interfaceMethods ctx typeName rest (acc ++ methodCode ++ "\n") im1
          else interfaceMethods ctx typeName rest acc im1

/-- generateInterfaceAnnotations from the interface source: deprecation
and custom annotations only. -/
def interfaceAnns (td : TypeDef) (im : ImportManager) : List String × ImportManager :=
  let dep := generateDeprecatedAnn td.directives
  let depList := if dep.1 ≠ "" then [dep.1] else []
  let custom := extractAnns td.directives
  (depList ++ custom.1, im.AddAll custom.2)

/-- The extends clause of the interface source with interface-name
decoration. -/
def extendsClause (ctx : Context) (interfaces : List String) : String :=
  if interfaces = [] then ""
  else
    " extends " ++
      String.intercalate ", "
        (interfaces.map fun iface =>
          if ctx.config.java.naming.interfacePfx ≠ "" then
            ctx.config.java.naming.interfacePfx ++ iface
          else iface)

/-- InterfaceGenerator.Generate from the interface source. -/
def interfaceGenerate (ctx : Context) (td : TypeDef) : Except GenError String :=
  let typeName := GetTypeName ctx.config.java.naming td
  if (ExtractSkipDirective td.directives).isSome then .ok ""
  else
    let packageDecl := "package " ++ ctx.config.output.package_ ++ ";\n\n"
    let im0 := NewImportManager ctx.config.output.package_
    let anns := interfaceAnns td im0
    let doc := if td.description ≠ "" then generateJavadocIndent "" td.description else ""
    let annsTxt := String.join (anns.1.map (· ++ "\n"))
    let header :=
      "public interface " ++ typeName ++ extendsClause ctx td.interfaces ++ " \x7b\n\n"
    match interfaceMethods ctx td.name td.fields "" anns.2 with
    | .error e => .error e
    | .ok (methodsTxt, im2) =>
        let body := doc ++ annsTxt ++ header ++ methodsTxt ++ "\x7d\n"
        let importBlock := im2.GenerateImportBlock
        .ok (packageDecl ++ (if importBlock ≠ "" then importBlock ++ "\n" else "") ++ body)

/-! ## Enum generator (generator enum source) -/

/-- generateEnumAnnotations: deprecation and custom annotations, the
custom imports flowing into the accumulator. -/
def generateEnumAnns (td : TypeDef) (im : ImportManager) : List String × ImportManager :=
  let dep := generateDeprecatedAnn td.directives
  let depList := if dep.1 ≠ "" then [dep.1] else []
  let custom := extractAnns td.directives
  (depList ++ custom.1, im.AddAll custom.2)

/-- generateValueAnnotations: per enum value. -/
def generateValueAnns (ev : EnumValueDef) (im : ImportManager) : List String × ImportManager :=
  let dep := generateDeprecatedAnn ev.directives
  let depList := if dep.1 ≠ "" then [dep.1] else []
  let custom := extractAnns ev.directives
  (depList ++ custom.1, im.AddAll custom.2)

/-- EnumGenerator.Generate from the enum source.  The comma/semicolon
choice compares the value's declared index with the declared length, and a
value carrying the skip directive is dropped before anything about it is
emitted. -/
def enumGenerate (ctx : Context) (td : TypeDef) : Except GenError String :=
  let typeName := GetTypeName ctx.config.java.naming td
  if (ExtractSkipDirective td.directives).isSome then .ok ""
  else
    let packageDecl := "package " ++ ctx.config.output.package_ ++ ";\n\n"
    let im0 := NewImportManager ctx.config.output.package_
    let anns := generateEnumAnns td im0
    let doc := if td.description ≠ "" then generateJavadocIndent "" td.description else ""
    let annsTxt := String.join (anns.1.map (· ++ "\n"))
    let header := "public enum " ++ typeName ++ " \x7b\n"
    let values :=
      td.enumValues.enum.foldl
        (fun (acc : String × ImportManager) p =>
          if (ExtractSkipDirective p.2.directives).isSome then acc
          else
            let vdoc :=
              if p.2.description ≠ "" then generateJavadocIndent "    " p.2.description else ""
            let vAnns := generateValueAnns p.2 acc.2
            let annTxt := String.join (vAnns.1.map fun ann => "    " ++ ann ++ "\n")
            let term := if p.1 < td.enumValues.length - 1 then ",\n" else ";\n"
            (acc.1 ++ vdoc ++ annTxt ++ "    " ++ GetEnumValueName p.2 ++ term, vAnns.2))
        ("", anns.2)
    let body := doc ++ annsTxt ++ header ++ values.1 ++ "\x7d\n"
    let importBlock := values.2.GenerateImportBlock
    .ok (packageDecl ++ (if importBlock ≠ "" then importBlock ++ "\n" else "") ++ body)

/-! ## Union generator (generator union source) -/

/-- UnionGenerator.Generate: an empty marker interface. -/
def unionGenerate (ctx : Context) (td : TypeDef) : Except GenError String :=
  let typeName := GetTypeName ctx.config.java.naming td
  if (ExtractSkipDirective td.directives).isSome then .ok ""
  else
    let packageDecl := "package " ++ ctx.config.output.package_ ++ ";\n\n"
    let doc :=
      if td.description ≠ "" then generateJavadocIndent "" td.description
      else "/**\n * Union type marker interface.\n * Possible types: \n */\n"
    .ok (packageDecl ++ doc ++ "public interface " ++ typeName ++
           " \x7b\n    // Marker interface for GraphQL union type\n\x7d\n")

/-! ## Generation orchestrator (generator orchestrator source) -/

structure GeneratedFile where
  fileName : String
  content : String
  typeDef : TypeDef
  deriving Repr

/-- generateType from the orchestrator: kind dispatch; scalar kinds and
empty generator output produce no file. -/
def generateType (ctx : Context) (td : TypeDef) : Except GenError (Option GeneratedFile) :=
  match
    (match td.kind with
     | .object => (classGenerate ctx td).map Option.some
     | .inputObject => (classGenerate ctx td).map Option.some
     | .interface_ => (interfaceGenerate ctx td).map Option.some
     | .enum_ => (enumGenerate ctx td).map Option.some
     | .union_ => (unionGenerate ctx td).map Option.some
     | .scalar => .ok none)
  with
  | .error e => .error e
  | .ok none => .ok none
  | .ok (some content) =>
      if content = "" then .ok none
      else
        .ok (some { fileName := GetTypeName ctx.config.java.naming td ++ ".java",
                    content := content, typeDef := td })

/-- Generator.Generate from the orchestrator: iterate the schema's types
(one chosen iteration sequence of the Go map), collecting files and
per-type errors without aborting; ErrorCollection.ToError collapses the
collected list at the boundary. -/
def Generate (ctx : Context) (types : List TypeDef) :
    List GeneratedFile × List GenError :=
  types.foldl
    (fun acc td =>
      match generateType ctx td with
      | .error e => (acc.1, acc.2 ++ [e])
      | .ok none => acc
      | .ok (some f) => (acc.1 ++ [f], acc.2))
    ([], [])

/-! ## Concrete instances used by counterexamples and witnesses -/

/-- Default configuration with the test output package (the repository's
generator tests use `com.test`). -/
def cfgTest : Config :=
  { DefaultConfig with output := { DefaultConfig.output with package_ := "com.test" } }

def ctxTest : Context :=
  { config := cfgTest, schemaTypes := [] }

/-- Configuration overriding the built-in scalar name `Int`. -/
def cfgOverrideInt : Config :=
  { DefaultConfig with
      scalarMappings := [("Int", { javaType := "MyInt", imports := ["com.x.MyInt"] })] }

/-- Configuration overriding a non-built-in scalar name `Money`. -/
def cfgOverrideMoney : Config :=
  { DefaultConfig with
      scalarMappings := [("Money", { javaType := "BigDecimal",
                                     imports := ["java.math.BigDecimal"] })] }

/-- Enum whose declared-last value carries the skip directive. -/
def statusTrailingSkip : TypeDef :=
  { name := "Status", kind := .enum_,
    enumValues := [ { name := "ACTIVE" },
                    { name := "PENDING", directives := [ { name := "skip" } ] } ] }

/-! ## Totality of the type mapper

The mapper's only error returns wrap an error produced by mapping a list
element; every base case succeeds, so mapping never fails. -/

theorem mapNamedType_ok (tm : TypeMapper) (name : String) :
    ∃ r, mapNamedType tm name = Except.ok r := by
  unfold mapNamedType
  rcases h1 : lookupScalar tm.customScalars name with _ | s1
  · rcases h2 : BuiltinScalars name with _ | s2
    · rcases h3 : CommonScalars name with _ | s3
      · rcases h4 : lookupType tm.schemaTypes name with _ | td
        · exact ⟨_, by simp [h1, h2, h3, h4]; rfl⟩
        · exact ⟨_, by simp [h1, h2, h3, h4]; rfl⟩
      · exact ⟨_, by simp [h1, h2, h3]; rfl⟩
    · exact ⟨_, by simp [h1, h2]; rfl⟩
  · exact ⟨_, by simp [h1]; rfl⟩

theorem mapTypeInternal_ok (tm : TypeMapper) :
    ∀ (t : TypeRef) (topLevel : Bool), ∃ r, mapTypeInternal tm t topLevel = Except.ok r := by
  intro t
  induction t with
  | named name nn =>
      intro topLevel
      obtain ⟨r, hr⟩ := mapNamedType_ok tm name
      exact ⟨_, by simp [mapTypeInternal, hr]; rfl⟩
  | list nm elem nn ih =>
      intro topLevel
      obtain ⟨r, hr⟩ := ih false
      exact ⟨_, by simp [mapTypeInternal, hr]; rfl⟩

theorem mapType_ok (tm : TypeMapper) (t : Option TypeRef) :
    ∃ r, MapType tm t = Except.ok r := by
  cases t with
  | none => exact ⟨_, rfl⟩
  | some typeRef => simpa [MapType] using mapTypeInternal_ok tm typeRef true

theorem mapFieldType_ok (tm : TypeMapper) (field : FieldDef) :
    ∃ r, MapFieldType tm field = Except.ok r := by
  unfold MapFieldType
  rcases hj : ExtractJavaTypeDirective field.directives with _ | j
  · obtain ⟨r, hr⟩ := mapType_ok tm field.typ
    rcases hc : ExtractCollectionDirective field.directives with _ | co
    · exact ⟨_, by simp [hj, hc, hr]; rfl⟩
    · by_cases hcoll : r.isCollection
      · exact ⟨_, by simp [hj, hc, hr, hcoll]; rfl⟩
      · exact ⟨_, by simp [hj, hc, hr, hcoll]; rfl⟩
  · exact ⟨_, by simp [hj]; rfl⟩

theorem newFieldContext_ok (ctx : Context) (field : FieldDef) :
    ∃ fc, NewFieldContext ctx field = Except.ok fc ∧ fc.field = field := by
  unfold NewFieldContext
  obtain ⟨r, hr⟩ := mapFieldType_ok (ctxMapper ctx) field
  exact ⟨_, by simp [hr]; rfl, rfl⟩

/-- Config-loaded custom scalars never carry a primitive form. -/
theorem lookupScalar_custom_primitiveType (cfg : Config) (sts : List (String × TypeDef))
    (name : String) (info : ScalarInfo)
    (h : lookupScalar (NewTypeMapper cfg sts).customScalars name = some info) :
    info.primitiveType = "" := by
  have main :
      ∀ (l : List (String × ScalarMapping)) (info : ScalarInfo),
        lookupScalar (l.map fun p => (p.1, { javaType := p.2.javaType, imports := p.2.imports }))
            name = some info →
        info.primitiveType = "" := by
    intro l
    induction l with
    | nil => intro info h; simp [lookupScalar] at h
    | cons p rest ih =>
        intro info h
        by_cases hp : p.1 = name
        · simp [lookupScalar, hp] at h
          rw [← h]
        · simp [lookupScalar, hp] at h
          exact ih info h
  exact main cfg.scalarMappings info h

/-! ## C2: named-type resolution order and override dominance -/

/-- C2 (amended): named-type resolution consults, in order, the
configuration-override scalars, the built-in scalar table, the common
scalar table, the schema type registry and finally opaque pass-through;
whenever a configuration override exists, `mapNamedType` returns the
override's target type and imports, and the top-level result keeps them
for nullable references under every nullability policy except `optional`,
and for non-null references whenever the overridden name is not a built-in
scalar with a primitive form. -/
theorem mapNamedType_resolution_chain (cfg : Config) (sts : List (String × TypeDef))
    (name : String) :
    (∀ info, lookupScalar (NewTypeMapper cfg sts).customScalars name = some info →
        mapNamedType (NewTypeMapper cfg sts) name =
          Except.ok { javaType := info.javaType, imports := info.imports,
                      isPrimitive := info.primitiveType ≠ "" })
  ∧ (lookupScalar (NewTypeMapper cfg sts).customScalars name = none →
      ∀ info, BuiltinScalars name = some info →
        mapNamedType (NewTypeMapper cfg sts) name =
          Except.ok { javaType := info.javaType, imports := info.imports })
  ∧ (lookupScalar (NewTypeMapper cfg sts).customScalars name = none →
      BuiltinScalars name = none →
      ∀ info, CommonScalars name = some info →
        mapNamedType (NewTypeMapper cfg sts) name =
          Except.ok { javaType := info.javaType, imports := info.imports })
  ∧ (lookupScalar (NewTypeMapper cfg sts).customScalars name = none →
      BuiltinScalars name = none → CommonScalars name = none →
      ∀ td, lookupType sts name = some td →
        mapNamedType (NewTypeMapper cfg sts) name =
          Except.ok { javaType := getJavaTypeName (NewTypeMapper cfg sts) td })
  ∧ (lookupScalar (NewTypeMapper cfg sts).customScalars name = none →
      BuiltinScalars name = none → CommonScalars name = none →
      lookupType sts name = none →
        mapNamedType (NewTypeMapper cfg sts) name = Except.ok { javaType := name })
  ∧ (∀ info, lookupScalar (NewTypeMapper cfg sts).customScalars name = some info →
      cfg.java.nullableHandling ≠ "optional" →
        MapType (NewTypeMapper cfg sts) (some (TypeRef.named name false)) =
          Except.ok { javaType := info.javaType, imports := info.imports })
  ∧ (∀ info, lookupScalar (NewTypeMapper cfg sts).customScalars name = some info →
      (∀ b, BuiltinScalars name = some b → b.primitiveType = "") →
        MapType (NewTypeMapper cfg sts) (some (TypeRef.named name true)) =
          Except.ok { javaType := info.javaType, imports := info.imports }) := by
  refine ⟨?_, ?_, ?_, ?_, ?_, ?_, ?_⟩
  · intro info h
    simp [mapNamedType, h]
  · intro h info hbi
    simp [mapNamedType, h, hbi]
  · intro h hb info hci
    simp [mapNamedType, h, hb, hci]
  · intro h hb hc td ht
    have ht' : lookupType (NewTypeMapper cfg sts).schemaTypes name = some td := ht
    simp [mapNamedType, h, hb, hc, ht']
  · intro h hb hc ht
    have ht' : lookupType (NewTypeMapper cfg sts).schemaTypes name = none := ht
    simp [mapNamedType, h, hb, hc, ht']
  · intro info h hopt
    have hprim := lookupScalar_custom_primitiveType cfg sts name info h
    have hmn : mapNamedType (NewTypeMapper cfg sts) name =
        Except.ok { javaType := info.javaType, imports := info.imports,
                    isPrimitive := info.primitiveType ≠ "" } := by
      simp [mapNamedType, h]
    have hcfg : (NewTypeMapper cfg sts).config = cfg := rfl
    by_cases hann : cfg.java.nullableHandling = "annotation"
    · simp only [MapType, mapTypeInternal, hmn]
      simp [applyNullability, hcfg, hopt, hann, hprim]
    · simp only [MapType, mapTypeInternal, hmn]
      simp [applyNullability, hcfg, hopt, hann, hprim]
  · intro info h hb
    have hprim := lookupScalar_custom_primitiveType cfg sts name info h
    have hmn : mapNamedType (NewTypeMapper cfg sts) name =
        Except.ok { javaType := info.javaType, imports := info.imports,
                    isPrimitive := info.primitiveType ≠ "" } := by
      simp [mapNamedType, h]
    rcases hbi : BuiltinScalars name with _ | b
    · simp [MapType, mapTypeInternal, hmn, hbi, hprim]
    · have := hb b hbi
      simp [MapType, mapTypeInternal, hmn, hbi, hprim, this]

/-- C2 counterexample: with a configuration override mapping the built-in
name `Int` to `MyInt`, a top-level non-null `Int` reference still resolves
to the unboxed primitive `int`, not to the override's target type. -/
theorem mapType_override_not_preserved :
    MapType (NewTypeMapper cfgOverrideInt []) (some (TypeRef.named "Int" true)) =
      Except.ok { javaType := "int", imports := ["com.x.MyInt"], isPrimitive := true }
  ∧ ("int" : String) ≠ "MyInt" := by
  constructor
  · rfl
  · decide

/-- C2 witness: a concrete override of the scalar name `Money` resolved
through the override branch. -/
theorem mapNamedType_resolution_chain_witness :
    lookupScalar (NewTypeMapper cfgOverrideMoney []).customScalars "Money" =
      some { javaType := "BigDecimal", imports := ["java.math.BigDecimal"] }
  ∧ mapNamedType (NewTypeMapper cfgOverrideMoney []) "Money" =
      Except.ok { javaType := "BigDecimal", imports := ["java.math.BigDecimal"],
                  isPrimitive := ("" : String) ≠ "" } := by
  exact ⟨rfl,
    (mapNamedType_resolution_chain cfgOverrideMoney [] "Money").1
      { javaType := "BigDecimal", imports := ["java.math.BigDecimal"] } rfl⟩

/-! ## C3: scope of the non-null unboxed-primitive preference -/

/-- C3 (amended): at top level a non-null reference to a built-in scalar
with a primitive form (Int, Float, Boolean) resolves to the unboxed
primitive with the is-primitive flag set; common scalars with a primitive
form (Long, Short, Byte, Char) are not consulted by this step and keep
their boxed target type with the is-primitive flag clear. -/
theorem mapType_nonNull_unboxing_scope (cfg : Config) (sts : List (String × TypeDef)) :
    (∀ r, MapType (NewTypeMapper cfg sts) (some (TypeRef.named "Int" true)) = Except.ok r →
        r.javaType = "int" ∧ r.isPrimitive = true)
  ∧ (∀ r, MapType (NewTypeMapper cfg sts) (some (TypeRef.named "Float" true)) = Except.ok r →
        r.javaType = "double" ∧ r.isPrimitive = true)
  ∧ (∀ r, MapType (NewTypeMapper cfg sts) (some (TypeRef.named "Boolean" true)) = Except.ok r →
        r.javaType = "boolean" ∧ r.isPrimitive = true)
  ∧ (lookupScalar (NewTypeMapper cfg sts).customScalars "Long" = none →
      MapType (NewTypeMapper cfg sts) (some (TypeRef.named "Long" true)) =
        Except.ok { javaType := "Long" })
  ∧ (lookupScalar (NewTypeMapper cfg sts).customScalars "Short" = none →
      MapType (NewTypeMapper cfg sts) (some (TypeRef.named "Short" true)) =
        Except.ok { javaType := "Short" })
  ∧ (lookupScalar (NewTypeMapper cfg sts).customScalars "Byte" = none →
      MapType (NewTypeMapper cfg sts) (some (TypeRef.named "Byte" true)) =
        Except.ok { javaType := "Byte" })
  ∧ (lookupScalar (NewTypeMapper cfg sts).customScalars "Char" = none →
      MapType (NewTypeMapper cfg sts) (some (TypeRef.named "Char" true)) =
        Except.ok { javaType := "Character" }) := by
  refine ⟨?_, ?_, ?_, ?_, ?_, ?_, ?_⟩
  · intro r hr
    obtain ⟨r₀, h₀⟩ := mapNamedType_ok (NewTypeMapper cfg sts) "Int"
    simp only [MapType, mapTypeInternal, h₀] at hr
    simp [BuiltinScalars] at hr
    rw [← hr]
    exact ⟨rfl, rfl⟩
  · intro r hr
    obtain ⟨r₀, h₀⟩ := mapNamedType_ok (NewTypeMapper cfg sts) "Float"
    simp only [MapType, mapTypeInternal, h₀] at hr
    simp [BuiltinScalars] at hr
    rw [← hr]
    exact ⟨rfl, rfl⟩
  · intro r hr
    obtain ⟨r₀, h₀⟩ := mapNamedType_ok (NewTypeMapper cfg sts) "Boolean"
    simp only [MapType, mapTypeInternal, h₀] at hr
    simp [BuiltinScalars] at hr
    rw [← hr]
    exact ⟨rfl, rfl⟩
  · intro h
    simp [MapType, mapTypeInternal, mapNamedType, h, BuiltinScalars, CommonScalars]
  · intro h
    simp [MapType, mapTypeInternal, mapNamedType, h, BuiltinScalars, CommonScalars]
  · intro h
    simp [MapType, mapTypeInternal, mapNamedType, h, BuiltinScalars, CommonScalars]
  · intro h
    simp [MapType, mapTypeInternal, mapNamedType, h, BuiltinScalars, CommonScalars]

/-- C3 counterexample: with the default configuration, a top-level
non-null `Long` reference maps to the boxed `Long`, not to the unboxed
`long` the claim promises for common scalars with a primitive form. -/
theorem mapType_long_nonNull_stays_boxed :
    MapType (NewTypeMapper DefaultConfig []) (some (TypeRef.named "Long" true)) =
      Except.ok { javaType := "Long" }
  ∧ ("Long" : String) ≠ "long"
  ∧ IsPrimitive "Long" = false := by
  refine ⟨rfl, by decide, rfl⟩

/-- C3 witness: the built-in case at `Int` and the common-scalar case at
`Long`, under the default configuration. -/
theorem mapType_nonNull_unboxing_scope_witness :
    (({ javaType := "int", isPrimitive := true } : MapResult).javaType = "int"
      ∧ ({ javaType := "int", isPrimitive := true } : MapResult).isPrimitive = true)
  ∧ MapType (NewTypeMapper DefaultConfig []) (some (TypeRef.named "Long" true)) =
      Except.ok { javaType := "Long" } := by
  exact ⟨(mapType_nonNull_unboxing_scope DefaultConfig []).1
           { javaType := "int", isPrimitive := true } rfl,
         (mapType_nonNull_unboxing_scope DefaultConfig []).2.2.2.1 rfl⟩

/-! ## C4: nullable references never resolve to an unboxed primitive -/

/-- Core of C4: a named reference whose resolution produced a
non-primitive wrapper type stays non-primitive under every nullability
policy. -/
theorem mapType_nullable_core (cfg : Config) (sts : List (String × TypeDef))
    (name w : String)
    (hmn : mapNamedType (NewTypeMapper cfg sts) name = Except.ok { javaType := w })
    (hw : IsPrimitive w = false)
    (hwo : IsPrimitive ("Optional<" ++ BoxType w ++ ">") = false)
    (r : MapResult)
    (hmap : MapType (NewTypeMapper cfg sts) (some (TypeRef.named name false)) = Except.ok r) :
    r.isPrimitive = false ∧ IsPrimitive r.javaType = false := by
  have hcfg : (NewTypeMapper cfg sts).config = cfg := rfl
  simp only [MapType, mapTypeInternal, hmn] at hmap
  by_cases h1 : cfg.java.nullableHandling = "optional"
  · simp [applyNullability, hcfg, h1, FormatOptionalType] at hmap
    rw [← hmap]
    exact ⟨rfl, hwo⟩
  · by_cases h2 : cfg.java.nullableHandling = "annotation"
    · simp [applyNullability, hcfg, h1, h2] at hmap
      rw [← hmap]
      exact ⟨rfl, hw⟩
    · simp [applyNullability, hcfg, h1, h2] at hmap
      rw [← hmap]
      exact ⟨rfl, hw⟩

/-- C4: for every nullability policy and every built-in scalar name not
shadowed by a configuration override, a top-level nullable reference
resolves with the is-primitive flag clear and a target type that is not an
unboxed primitive. -/
theorem mapType_nullable_never_primitive (cfg : Config) (sts : List (String × TypeDef))
    (name : String)
    (hname : name = "String" ∨ name = "Int" ∨ name = "Float" ∨ name = "Boolean" ∨ name = "ID")
    (hover : lookupScalar (NewTypeMapper cfg sts).customScalars name = none)
    (r : MapResult)
    (hmap : MapType (NewTypeMapper cfg sts) (some (TypeRef.named name false)) = Except.ok r) :
    r.isPrimitive = false ∧ IsPrimitive r.javaType = false := by
  rcases hname with h | h | h | h | h <;> subst h
  · exact mapType_nullable_core cfg sts "String" "String"
      (by simp only [mapNamedType, hover]; rfl) rfl rfl r hmap
  · exact mapType_nullable_core cfg sts "Int" "Integer"
      (by simp only [mapNamedType, hover]; rfl) rfl rfl r hmap
  · exact mapType_nullable_core cfg sts "Float" "Double"
      (by simp only [mapNamedType, hover]; rfl) rfl rfl r hmap
  · exact mapType_nullable_core cfg sts "Boolean" "Boolean"
      (by simp only [mapNamedType, hover]; rfl) rfl rfl r hmap
  · exact mapType_nullable_core cfg sts "ID" "String"
      (by simp only [mapNamedType, hover]; rfl) rfl rfl r hmap

/-- C4 witness: nullable `Int` under the optional policy resolves to
`Optional<Integer>` with the is-primitive flag clear. -/
theorem mapType_nullable_never_primitive_witness :
    ({ javaType := "Optional<Integer>", imports := ["java.util.Optional"], isOptional := true } : MapResult).isPrimitive = false
  ∧ IsPrimitive (({ javaType := "Optional<Integer>", imports := ["java.util.Optional"], isOptional := true } : MapResult).javaType) = false := by
  exact mapType_nullable_never_primitive
    { DefaultConfig with java := { DefaultConfig.java with nullableHandling := "optional" } }
    [] "Int" (Or.inr (Or.inl rfl)) rfl _ rfl

/-! ## C7: lombok facet patch semantics -/

theorem lookupFacet_mapSet_self (m : List (String × Bool)) (k : String) (v : Bool) :
    lookupFacet (mapSet m k v) k = some v := by
  induction m with
  | nil => simp [mapSet, lookupFacet]
  | cons p rest ih =>
      by_cases hp : p.1 = k
      · simp [mapSet, hp, lookupFacet]
      · simp [mapSet, hp, lookupFacet, ih]

theorem lookupFacet_mapSet_other (m : List (String × Bool)) (k key : String) (v : Bool)
    (h : key ≠ k) :
    lookupFacet (mapSet m k v) key = lookupFacet m key := by
  have hk : ¬ (k = key) := fun hh => h hh.symm
  induction m with
  | nil => simp [mapSet, lookupFacet, hk]
  | cons p rest ih =>
      by_cases hp : p.1 = k
      · have hp1 : ¬ (p.1 = key) := by rw [hp]; exact hk
        simp [mapSet, hp, lookupFacet, hk, hp1]
      · by_cases hk2 : p.1 = key
        · simp [mapSet, hp, lookupFacet, hk2, h]
        · simp [mapSet, hp, lookupFacet, hk2, ih]

theorem lookupFacet_foldl_set_of_not_mem (xs : List String) (v : Bool)
    (m : List (String × Bool)) (key : String) (h : key ∉ xs) :
    lookupFacet (xs.foldl (fun acc x => mapSet acc x v) m) key = lookupFacet m key := by
  induction xs generalizing m with
  | nil => rfl
  | cons x xs ih =>
      have hx : key ≠ x := fun hk => h (hk ▸ List.mem_cons_self x xs)
      have hxs : key ∉ xs := fun hk => h (List.mem_cons_of_mem x hk)
      simp only [List.foldl_cons]
      rw [ih (mapSet m x v) hxs, lookupFacet_mapSet_other m x key v hx]

theorem lookupFacet_foldl_set_of_mem (xs : List String) (v : Bool)
    (m : List (String × Bool)) (key : String) (h : key ∈ xs) :
    lookupFacet (xs.foldl (fun acc x => mapSet acc x v) m) key = some v := by
  induction xs generalizing m with
  | nil => cases h
  | cons x xs ih =>
      by_cases hxs : key ∈ xs
      · simp only [List.foldl_cons]
        exact ih (mapSet m x v) hxs
      · have hx : key = x := by
          rcases List.mem_cons.mp h with h₁ | h₂
          · exact h₁
          · exact absurd h₂ hxs
        subst hx
        simp only [List.foldl_cons]
        rw [lookupFacet_foldl_set_of_not_mem xs v (mapSet m key v) key hxs,
            lookupFacet_mapSet_self]

/-- C7: the lombok directive patch starts from the configured per-facet
booleans, sets every excluded facet to false, then sets every included
facet to true; a facet in both lists ends up enabled, and a facet in
neither list keeps its configured default. -/
theorem lombok_patch_semantics (cfg : LombokConfig) (d : LombokDirectiveInfo)
    (facet : String) :
    (facet ∈ d.incl →
        lookupFacet (getEnabledAnnotations cfg (some d)) facet = some true)
  ∧ (facet ∉ d.incl → facet ∈ d.excl →
        lookupFacet (getEnabledAnnotations cfg (some d)) facet = some false)
  ∧ (facet ∉ d.incl → facet ∉ d.excl →
        lookupFacet (getEnabledAnnotations cfg (some d)) facet =
          lookupFacet (getEnabledAnnotations cfg none) facet) := by
  refine ⟨?_, ?_, ?_⟩
  · intro hin
    exact lookupFacet_foldl_set_of_mem d.incl true _ facet hin
  · intro hnin hex
    simp only [getEnabledAnnotations]
    rw [lookupFacet_foldl_set_of_not_mem d.incl true _ facet hnin]
    exact lookupFacet_foldl_set_of_mem d.excl false _ facet hex
  · intro hnin hnex
    simp only [getEnabledAnnotations]
    rw [lookupFacet_foldl_set_of_not_mem d.incl true _ facet hnin]
    rw [lookupFacet_foldl_set_of_not_mem d.excl false _ facet hnex]

/-- C7 witness: the facet `data`, listed in both the exclude and the
include lists, ends up enabled. -/
theorem lombok_patch_semantics_witness :
    ("data" ∈ (({ excl := ["data"], incl := ["data"] } : LombokDirectiveInfo)).incl)
  ∧ lookupFacet
      (getEnabledAnnotations { enabled := true, data := false }
        (some { excl := ["data"], incl := ["data"] })) "data" = some true := by
  exact ⟨by decide,
    (lombok_patch_semantics { enabled := true, data := false }
      { excl := ["data"], incl := ["data"] } "data").1 (by decide)⟩

/-! ## C9: getter naming -/

/-- C9: a boolean field's getter uses the `is` prefix exactly when the
lowercased field name does not already start with `is`; otherwise, and for
every non-boolean field, the `get` prefix is used; the field name is
capitalized after the prefix. -/
theorem getGetterName_spec (fieldName : String) :
    (['i', 's'].isPrefixOf (lowerL fieldName.data) = false →
        GetGetterName fieldName true = "is" ++ capitalizeFirst fieldName)
  ∧ (['i', 's'].isPrefixOf (lowerL fieldName.data) = true →
        GetGetterName fieldName true = "get" ++ capitalizeFirst fieldName)
  ∧ GetGetterName fieldName false = "get" ++ capitalizeFirst fieldName := by
  refine ⟨?_, ?_, ?_⟩
  · intro h
    simp [GetGetterName, h]
  · intro h
    simp [GetGetterName, h]
  · simp [GetGetterName]

/-- C9 witness: the field `isActive` (boolean) resolves to `getIsActive`;
evaluating the right-hand side shows the concrete getter name. -/
theorem getGetterName_spec_witness :
    (['i', 's'].isPrefixOf (lowerL "isActive".data) = true)
  ∧ GetGetterName "isActive" true = "get" ++ capitalizeFirst "isActive"
  ∧ "get" ++ capitalizeFirst "isActive" = "getIsActive" := by
  exact ⟨by decide, (getGetterName_spec "isActive").2.1 (by decide), by decide⟩

/-! ## C1: enum terminator punctuation under skip directives -/

/-- C1: for the enum `Status \x7b ACTIVE, PENDING @skip \x7d` (the
declared-last value skipped), the emitted body keeps the list separator
after `ACTIVE` and emits no statement terminator at all: the comma/semicolon
choice compares the declared index with the declared length, so the `;`
is lost together with the skipped declared-last value instead of landing
on the new last retained value. -/
theorem enumGenerate_trailing_skip_no_terminator :
    enumGenerate ctxTest statusTrailingSkip =
      Except.ok "package com.test;\n\npublic enum Status \x7b\n    ACTIVE,\n\x7d\n" := by
  rfl

/-! ## C8: camelCase conversion is idempotent on snake_case identifiers -/

theorem char_toNat_ofNat (n : Nat) (h : n < 55296) : (Char.ofNat n).toNat = n := by
  have hv : n.isValidChar := Or.inl h
  unfold Char.ofNat
  rw [dif_pos hv]
  show (Char.ofNatAux n hv).toNat = n
  simp [Char.ofNatAux, Char.toNat, UInt32.toNat]

theorem asciiToLower_of_lower (c : Char) (h : isLowerAscii c = true) :
    asciiToLower c = c := by
  simp [isLowerAscii] at h
  unfold asciiToLower
  rw [if_neg]
  omega

theorem asciiToLower_ne_underscore (c : Char) (h : c ≠ '_') :
    asciiToLower c ≠ '_' := by
  unfold asciiToLower
  by_cases hr : 65 ≤ c.toNat ∧ c.toNat ≤ 90
  · rw [if_pos hr]
    intro heq
    have := congrArg Char.toNat heq
    rw [char_toNat_ofNat (c.toNat + 32) (by omega)] at this
    have h95 : ('_').toNat = 95 := rfl
    omega
  · rw [if_neg hr]
    exact h

theorem asciiToUpper_ne_underscore (c : Char) (h : c ≠ '_') :
    asciiToUpper c ≠ '_' := by
  unfold asciiToUpper
  by_cases hr : 97 ≤ c.toNat ∧ c.toNat ≤ 122
  · rw [if_pos hr]
    intro heq
    have := congrArg Char.toNat heq
    rw [char_toNat_ofNat (c.toNat - 32) (by omega)] at this
    have h95 : ('_').toNat = 95 := rfl
    omega
  · rw [if_neg hr]
    exact h

theorem not_mem_lowerL (l : List Char) (h : '_' ∉ l) : '_' ∉ lowerL l := by
  intro hmem
  obtain ⟨x, hx, hxe⟩ := List.mem_map.mp hmem
  by_cases hxu : x = '_'
  · exact h (hxu ▸ hx)
  · exact asciiToLower_ne_underscore x hxu hxe

theorem splitChar_ne_nil (sep : Char) (l : List Char) : splitChar sep l ≠ [] := by
  induction l with
  | nil => simp [splitChar]
  | cons c cs ih =>
      by_cases hc : c = sep
      · simp [splitChar, hc]
      · rcases hs : splitChar sep cs with _ | ⟨p, ps⟩
        · exact absurd hs ih
        · simp [splitChar, hc, hs]

theorem splitChar_no_sep (sep : Char) (l : List Char) :
    ∀ p ∈ splitChar sep l, sep ∉ p := by
  induction l with
  | nil =>
      intro p hp
      simp [splitChar] at hp
      subst hp
      simp
  | cons c cs ih =>
      intro p hp
      by_cases hc : c = sep
      · simp [splitChar, hc] at hp
        rcases hp with hp | hp
        · subst hp; simp
        · exact ih p hp
      · rcases hs : splitChar sep cs with _ | ⟨q, qs⟩
        · exact absurd hs (splitChar_ne_nil sep cs)
        · simp [splitChar, hc, hs] at hp
          rcases hp with hp | hp
          · subst hp
            intro hmem
            rcases List.mem_cons.mp hmem with h1 | h1
            · exact hc h1.symm
            · exact ih q (by rw [hs]; exact List.mem_cons_self q qs) h1
          · exact ih p (by rw [hs]; exact List.mem_cons_of_mem q hp)

theorem splitChar_head (sep c : Char) (cs : List Char) (hc : c ≠ sep) :
    ∃ p ps, splitChar sep (c :: cs) = (c :: p) :: ps ∧ splitChar sep cs = p :: ps := by
  rcases hs : splitChar sep cs with _ | ⟨p, ps⟩
  · exact absurd hs (splitChar_ne_nil sep cs)
  · exact ⟨p, ps, by simp [splitChar, hc, hs], rfl⟩

/-- The camelCase conversion of a snake_case identifier is non-empty,
starts with a lowercase letter, and contains no underscore. -/
theorem toCamelCaseL_snake_shape (l : List Char) (h : isSnakeIdent l = true) :
    ∃ c t, toCamelCaseL l = c :: t ∧ isLowerAscii c = true ∧ '_' ∉ (c :: t) := by
  rcases hl : l with _ | ⟨c0, cs⟩
  · rw [hl] at h
    simp [isSnakeIdent] at h
  · subst hl
    have hc0 : isLowerAscii c0 = true := by
      simp only [isSnakeIdent, Bool.and_eq_true] at h
      exact h.1
    have hc0u : c0 ≠ '_' := by
      intro he
      rw [he] at hc0
      exact absurd hc0 (by decide)
    by_cases hu : '_' ∈ (c0 :: cs)
    · obtain ⟨p, ps, hsplit, _⟩ := splitChar_head '_' c0 cs hc0u
      have heq : toCamelCaseL (c0 :: cs) =
          asciiToLower c0 ::
            (lowerL p ++
              (ps.map fun q => if q = [] then [] else capitalizeFirstL (lowerL q)).flatten) := by
        simp only [toCamelCaseL]
        rw [if_neg (by simp), if_pos hu, hsplit]
        simp [lowerL]
      refine ⟨asciiToLower c0, _, heq, ?_, ?_⟩
      · rw [asciiToLower_of_lower c0 hc0]
        exact hc0
      · intro hmem
        have hparts := splitChar_no_sep '_' (c0 :: cs)
        have hhead : (c0 :: p) ∈ splitChar '_' (c0 :: cs) := by
          rw [hsplit]; exact List.mem_cons_self _ _
        have hheadns : '_' ∉ (c0 :: p) := hparts _ hhead
        rcases List.mem_cons.mp hmem with h1 | h1
        · exact asciiToLower_ne_underscore c0 hc0u h1.symm
        · rcases List.mem_append.mp h1 with h2 | h2
          · have hpn : '_' ∉ p := fun hin => hheadns (List.mem_cons_of_mem c0 hin)
            exact not_mem_lowerL p hpn h2
          · obtain ⟨piece, hpiece, hin⟩ := List.mem_flatten.mp h2
            obtain ⟨q, hq, hqe⟩ := List.mem_map.mp hpiece
            have hqmem : q ∈ splitChar '_' (c0 :: cs) := by
              rw [hsplit]; exact List.mem_cons_of_mem _ hq
            have hqns : '_' ∉ q := hparts q hqmem
            rcases hqq : q with _ | ⟨q0, qt⟩
            · rw [hqq] at hqe
              simp at hqe
              rw [hqe] at hin
              exact absurd hin (List.not_mem_nil '_')
            · rw [hqq] at hqe
              simp [capitalizeFirstL, lowerL] at hqe
              rw [← hqe] at hin
              have hq0 : q0 ≠ '_' := by
                intro he
                exact hqns (hqq ▸ (he ▸ List.mem_cons_self q0 qt))
              rcases List.mem_cons.mp hin with h3 | h3
              · exact asciiToUpper_ne_underscore (asciiToLower q0)
                  (asciiToLower_ne_underscore q0 hq0) h3.symm
              · have hqt : '_' ∉ qt := by
                  intro hti
                  exact hqns (hqq ▸ List.mem_cons_of_mem q0 hti)
                exact not_mem_lowerL qt hqt h3
    · have heq : toCamelCaseL (c0 :: cs) = asciiToLower c0 :: cs := by
        simp only [toCamelCaseL]
        rw [if_neg (by simp), if_neg hu]
      refine ⟨asciiToLower c0, cs, heq, ?_, ?_⟩
      · rw [asciiToLower_of_lower c0 hc0]
        exact hc0
      · rw [asciiToLower_of_lower c0 hc0]
        exact hu

theorem toCamelCaseL_idem (l : List Char) (h : isSnakeIdent l = true) :
    toCamelCaseL (toCamelCaseL l) = toCamelCaseL l := by
  obtain ⟨c, t, hout, hc, hmem⟩ := toCamelCaseL_snake_shape l h
  rw [hout]
  simp only [toCamelCaseL]
  rw [if_neg (by simp), if_neg hmem]
  rw [asciiToLower_of_lower c hc]

/-- C8: converting a snake_case identifier to camelCase reaches a stable
fixed point: applying the conversion to its own output changes nothing. -/
theorem toCamelCase_idem_on_snake (s : String) (h : isSnakeIdent s.data = true) :
    toCamelCase (toCamelCase s) = toCamelCase s := by
  show String.mk (toCamelCaseL (String.mk (toCamelCaseL s.data)).data) =
    String.mk (toCamelCaseL s.data)
  exact congrArg String.mk (toCamelCaseL_idem s.data h)

/-- C8 witness: the identifier `user_name`. -/
theorem toCamelCase_idem_on_snake_witness :
    isSnakeIdent "user_name".data = true
  ∧ toCamelCase (toCamelCase "user_name") = toCamelCase "user_name"
  ∧ toCamelCase "user_name" = "userName" := by
  exact ⟨by decide, toCamelCase_idem_on_snake "user_name" (by decide), by decide⟩

/-! ## C10: import accumulator invariant and sorted import block -/

theorem add_package (m : ImportManager) (imp : String) :
    (m.Add imp).package_ = m.package_ := by
  unfold ImportManager.Add
  split
  · rfl
  · split
    · rfl
    · split
      · rfl
      · split
        · rfl
        · rfl

theorem add_mem (m : ImportManager) (imp x : String)
    (hx : x ∈ (m.Add imp).imports) :
    x ∈ m.imports ∨
      (x = imp ∧ isJavaLangDirect imp = false ∧ samePkg m.package_ imp = false) := by
  unfold ImportManager.Add at hx
  split at hx
  · exact Or.inl hx
  · split at hx
    · exact Or.inl hx
    · split at hx
      · exact Or.inl hx
      · split at hx
        · exact Or.inl hx
        · rcases List.mem_append.mp hx with h1 | h1
          · exact Or.inl h1
          · rename_i h2 h3 _
            refine Or.inr ⟨List.mem_singleton.mp h1, ?_, ?_⟩
            · exact Bool.eq_false_iff.mpr h2
            · exact Bool.eq_false_iff.mpr fun hs => h3 (by
                simpa [ImportManager.isSamePackage] using hs)

theorem add_nodup (m : ImportManager) (imp : String) (h : m.imports.Nodup) :
    (m.Add imp).imports.Nodup := by
  unfold ImportManager.Add
  split
  · exact h
  · split
    · exact h
    · split
      · exact h
      · split
        · exact h
        · rename_i hnotmem
          refine List.nodup_append.mpr ⟨h, List.nodup_singleton imp, ?_⟩
          intro a ha hb
          rw [List.mem_singleton.mp hb] at ha
          exact hnotmem ha

theorem addAll_inv (imps : List String) (m : ImportManager)
    (h1 : ∀ x ∈ m.imports, isJavaLangDirect x = false ∧ samePkg m.package_ x = false)
    (h2 : m.imports.Nodup) :
    (m.AddAll imps).package_ = m.package_ ∧
    (∀ x ∈ (m.AddAll imps).imports,
        isJavaLangDirect x = false ∧ samePkg m.package_ x = false) ∧
    (m.AddAll imps).imports.Nodup := by
  induction imps generalizing m with
  | nil => exact ⟨rfl, h1, h2⟩
  | cons imp rest ih =>
      have hstep : ∀ x ∈ (m.Add imp).imports,
          isJavaLangDirect x = false ∧ samePkg (m.Add imp).package_ x = false := by
        intro x hx
        rw [add_package]
        rcases add_mem m imp x hx with hmem | ⟨hxe, hj, hs⟩
        · exact h1 x hmem
        · exact ⟨hxe ▸ hj, hxe ▸ hs⟩
      obtain ⟨hp, hmem, hnd⟩ := ih (m.Add imp) hstep (add_nodup m imp h2)
      have hpp : (m.Add imp).package_ = m.package_ := add_package m imp
      refine ⟨?_, ?_, ?_⟩
      · show ((m.Add imp).AddAll rest).package_ = m.package_
        rw [hp, hpp]
      · intro x hx
        have := hmem x hx
        rw [hpp] at this
        exact this
      · exact hnd

theorem samePkg_false_packageOf (pkg x : String) (hpkg : pkg ≠ "")
    (h : samePkg pkg x = false) : packageOf x ≠ some pkg := by
  unfold samePkg at h
  rw [if_neg hpkg] at h
  cases hb : beforeLastDot x.data with
  | none => simp [packageOf, hb]
  | some l =>
      rw [hb] at h
      simp at h
      simp [packageOf, hb]
      exact h

theorem groupLoop_join (rest : List String) (groups : List (List String))
    (cur : List String) (pfx : String) :
    (groupLoop rest groups cur pfx).flatten = groups.flatten ++ cur ++ rest := by
  induction rest generalizing groups cur pfx with
  | nil =>
      by_cases hc : cur = [] <;> simp [groupLoop, hc]
  | cons imp rest ih =>
      simp only [groupLoop]
      split
      · by_cases hc : cur = [] <;>
          simp [hc, ih, List.append_assoc]
      · simp [ih, List.append_assoc]

/-- C10: after any sequence of Add/AddAll calls starting from a fresh
accumulator for a non-empty output package, the accumulated set contains
no direct java.lang import and no import whose package equals the output
package; the import block's emission order (the grouped list, flattened)
is exactly the accumulated set in lexicographically sorted order, without
duplicates. -/
theorem importManager_invariant (pkg : String) (adds : List String) (hpkg : pkg ≠ "") :
    (∀ imp ∈ ((NewImportManager pkg).AddAll adds).imports,
        isJavaLangDirect imp = false ∧ packageOf imp ≠ some pkg)
  ∧ ((NewImportManager pkg).AddAll adds).GetGrouped.flatten =
      ((NewImportManager pkg).AddAll adds).GetSorted
  ∧ List.Sorted (· ≤ ·) ((NewImportManager pkg).AddAll adds).GetSorted
  ∧ ((NewImportManager pkg).AddAll adds).GetSorted.Nodup
  ∧ (∀ imp, imp ∈ ((NewImportManager pkg).AddAll adds).GetSorted ↔
        imp ∈ ((NewImportManager pkg).AddAll adds).imports) := by
  obtain ⟨hp, hmem, hnd⟩ :=
    addAll_inv adds (NewImportManager pkg) (by intro x hx; cases hx) List.nodup_nil
  have hperm :
      List.Perm ((NewImportManager pkg).AddAll adds).GetSorted
        ((NewImportManager pkg).AddAll adds).imports :=
    List.perm_insertionSort _ _
  refine ⟨?_, ?_, ?_, ?_, ?_⟩
  · intro imp hi
    obtain ⟨hj, hs⟩ := hmem imp hi
    exact ⟨hj, samePkg_false_packageOf pkg imp hpkg hs⟩
  · show (groupLoop _ [] [] "").flatten = _
    rw [groupLoop_join]
    simp
  · exact List.sorted_insertionSort _ _
  · exact hperm.symm.nodup hnd
  · intro imp
    exact hperm.mem_iff

/-- C10 witness: a concrete Add sequence containing an empty entry, a
direct java.lang entry, a same-package entry and duplicates. -/
theorem importManager_invariant_witness :
    ("com.test" : String) ≠ ""
  ∧ (∀ imp ∈ ((NewImportManager "com.test").AddAll
        ["java.util.List", "", "java.lang.String", "com.test.User",
         "java.util.List", "com.acme.Dto"]).imports,
        isJavaLangDirect imp = false ∧ packageOf imp ≠ some "com.test") := by
  exact ⟨by decide,
    (importManager_invariant "com.test"
      ["java.util.List", "", "java.lang.String", "com.test.User",
       "java.util.List", "com.acme.Dto"] (by decide)).1⟩

/-! ## C6: skip transitivity -/

theorem classFields_skip (ctx : Context) (tn : String) (f : FieldDef)
    (hf : (ExtractSkipDirective f.directives).isSome = true) :
    ∀ (l1 l2 : List FieldDef) (acc : String) (fcs : List FieldContext) (im : ImportManager),
      classFields ctx tn (l1 ++ f :: l2) acc fcs im =
        classFields ctx tn (l1 ++ l2) acc fcs im := by
  intro l1
  induction l1 with
  | nil =>
      intro l2 acc fcs im
      obtain ⟨fc, hfc, hfield⟩ := newFieldContext_ok ctx f
      have hskip : fieldShouldSkip fc = true := by
        simp [fieldShouldSkip, hfield, hf]
      simp [classFields, hfc, hskip]
  | cons g l1 ih =>
      intro l2 acc fcs im
      simp only [List.cons_append]
      rcases hg : NewFieldContext ctx g with e | fc
      · simp [classFields, hg]
      · by_cases hs : fieldShouldSkip fc = true
        · simp [classFields, hg, hs, ih]
        · simp [classFields, hg, hs, ih]

/-- C6: a type carrying the skip directive produces no generated unit (its
generator returns empty text as success and the orchestrator maps empty
text to no file), and a field carrying the skip directive is absent from a
class's emitted output: generation with the skipped field is identical to
generation with that field removed (field declarations, getters and
setters included). -/
theorem skip_transitivity :
    (∀ (ctx : Context) (td : TypeDef),
        (ExtractSkipDirective td.directives).isSome = true →
        generateType ctx td = Except.ok none)
  ∧ (∀ (ctx : Context) (name : String) (kind : TypeKind) (desc : String)
        (l1 l2 : List FieldDef) (f : FieldDef) (evs : List EnumValueDef)
        (ifaces : List String) (dirs : List DirectiveDef),
        (ExtractSkipDirective f.directives).isSome = true →
        classGenerate ctx (TypeDef.mk name kind desc (l1 ++ f :: l2) evs ifaces dirs) =
          classGenerate ctx (TypeDef.mk name kind desc (l1 ++ l2) evs ifaces dirs)) := by
  constructor
  · intro ctx td h
    cases hk : td.kind <;>
      simp [generateType, hk, classGenerate, interfaceGenerate, enumGenerate, unionGenerate, h, Except.map]
  · intro ctx name kind desc l1 l2 f evs ifaces dirs hf
    have hanns : generateClassAnns ctx (TypeDef.mk name kind desc (l1 ++ f :: l2) evs ifaces dirs)
          (NewImportManager ctx.config.output.package_) =
        generateClassAnns ctx (TypeDef.mk name kind desc (l1 ++ l2) evs ifaces dirs)
          (NewImportManager ctx.config.output.package_) := rfl
    have hname : GetTypeName ctx.config.java.naming
          (TypeDef.mk name kind desc (l1 ++ f :: l2) evs ifaces dirs) =
        GetTypeName ctx.config.java.naming
          (TypeDef.mk name kind desc (l1 ++ l2) evs ifaces dirs) := rfl
    simp [classGenerate, classFields_skip ctx name f hf, hanns, hname]

/-- C6 witness: a concrete skipped type produces no file, and a concrete
class with a skipped field generates exactly the output of the same class
without that field. -/
theorem skip_transitivity_witness :
    generateType ctxTest
      { name := "Hidden", kind := .object, directives := [ { name := "skip" } ] } =
        Except.ok none
  ∧ classGenerate ctxTest
      (TypeDef.mk "User" .object ""
        ([ { name := "name", typ := some (.named "String" true) } ] ++
          { name := "internal", typ := some (.named "String" true),
            directives := [ { name := "skip" } ] } :: []) [] [] []) =
      classGenerate ctxTest
        (TypeDef.mk "User" .object ""
          ([ { name := "name", typ := some (.named "String" true) } ] ++ []) [] [] []) := by
  exact ⟨skip_transitivity.1 ctxTest
           { name := "Hidden", kind := .object, directives := [ { name := "skip" } ] }
           (by decide),
         skip_transitivity.2 ctxTest "User" .object ""
           [ { name := "name", typ := some (.named "String" true) } ] []
           { name := "internal", typ := some (.named "String" true),
             directives := [ { name := "skip" } ] } [] [] []
           (by decide)⟩

/-! ## C5 context: generation is total

The spec's partial-failure scenario presumes a type reference whose
mapping fails fatally.  The mapper's only error returns wrap an error
produced while mapping a list element, and every base case succeeds, so
per-type generation never returns an error and the orchestrator's error
collection stays empty on every input. -/

theorem classFields_ok (ctx : Context) (tn : String) :
    ∀ (flds : List FieldDef) (acc : String) (fcs : List FieldContext) (im : ImportManager),
      ∃ v, classFields ctx tn flds acc fcs im = Except.ok v := by
  intro flds
  induction flds with
  | nil => intro acc fcs im; exact ⟨_, rfl⟩
  | cons g rest ih =>
      intro acc fcs im
      obtain ⟨fc, hfc, _⟩ := newFieldContext_ok ctx g
      by_cases hs : fieldShouldSkip fc = true
      · obtain ⟨v, hv⟩ := ih acc fcs im
        exact ⟨v, by simp [classFields, hfc, hs, hv]⟩
      · obtain ⟨v, hv⟩ := ih (acc ++ (generateFieldTxt ctx.config fc im).1 ++ "\n")
          (fcs ++ [fc]) (generateFieldTxt ctx.config fc im).2
        exact ⟨v, by simp [classFields, hfc, hs, hv]⟩

theorem interfaceMethodTxt_ok (ctx : Context) (field : FieldDef) (im : ImportManager) :
    ∃ v, interfaceMethodTxt ctx field im = Except.ok v := by
  unfold interfaceMethodTxt
  obtain ⟨fc, hfc, _⟩ := newFieldContext_ok ctx field
  by_cases hs : fieldShouldSkip fc = true
  · exact ⟨_, by simp [hfc, hs]; rfl⟩
  · exact ⟨_, by simp [hfc, hs]; rfl⟩

theorem interfaceMethods_ok (ctx : Context) (tn : String) :
    ∀ (flds : List FieldDef) (acc : String) (im : ImportManager),
      ∃ v, interfaceMethods ctx tn flds acc im = Except.ok v := by
  intro flds
  induction flds with
  | nil => intro acc im; exact ⟨_, rfl⟩
  | cons g rest ih =>
      intro acc im
      obtain ⟨⟨methodCode, im1⟩, hm⟩ := interfaceMethodTxt_ok ctx g im
      by_cases hc : methodCode ≠ ""
      · obtain ⟨v, hv⟩ := ih (acc ++ methodCode ++ "\n") im1
        exact ⟨v, by simp [interfaceMethods, hm, hc, hv]⟩
      · obtain ⟨v, hv⟩ := ih acc im1
        exact ⟨v, by simp [interfaceMethods, hm, hc, hv]⟩

theorem generateType_ok (ctx : Context) (td : TypeDef) :
    ∃ v, generateType ctx td = Except.ok v := by
  have hclass : ∀ td', ∃ s, classGenerate ctx td' = Except.ok s := by
    intro td'
    unfold classGenerate
    by_cases hs : (ExtractSkipDirective td'.directives).isSome = true
    · exact ⟨_, by simp [hs]; rfl⟩
    · obtain ⟨⟨fieldsTxt, fcs, im2⟩, hv⟩ :=
        classFields_ok ctx td'.name td'.fields "" []
          (generateClassAnns ctx td' (NewImportManager ctx.config.output.package_)).2
      exact ⟨_, by simp [hs, hv]; rfl⟩
  have hiface : ∃ s, interfaceGenerate ctx td = Except.ok s := by
    unfold interfaceGenerate
    by_cases hs : (ExtractSkipDirective td.directives).isSome = true
    · exact ⟨_, by simp [hs]; rfl⟩
    · obtain ⟨⟨methodsTxt, im2⟩, hv⟩ :=
        interfaceMethods_ok ctx td.name td.fields ""
          (interfaceAnns td (NewImportManager ctx.config.output.package_)).2
      exact ⟨_, by simp [hs, hv]; rfl⟩
  have henum : ∃ s, enumGenerate ctx td = Except.ok s := by
    unfold enumGenerate
    by_cases hs : (ExtractSkipDirective td.directives).isSome = true
    · exact ⟨_, by simp [hs]; rfl⟩
    · exact ⟨_, by simp [hs]; rfl⟩
  have hunion : ∃ s, unionGenerate ctx td = Except.ok s := by
    unfold unionGenerate
    by_cases hs : (ExtractSkipDirective td.directives).isSome = true
    · exact ⟨_, by simp [hs]; rfl⟩
    · exact ⟨_, by simp [hs]; rfl⟩
  unfold generateType
  cases hk : td.kind
  all_goals first
    | exact ⟨_, rfl⟩
    | · obtain ⟨s, hsv⟩ := hclass td
        by_cases hse : s = "" <;> exact ⟨_, by simp [hsv, Except.map, hse]; rfl⟩
    | · obtain ⟨s, hsv⟩ := hiface
        by_cases hse : s = "" <;> exact ⟨_, by simp [hsv, Except.map, hse]; rfl⟩
    | · obtain ⟨s, hsv⟩ := henum
        by_cases hse : s = "" <;> exact ⟨_, by simp [hsv, Except.map, hse]; rfl⟩
    | · obtain ⟨s, hsv⟩ := hunion
        by_cases hse : s = "" <;> exact ⟨_, by simp [hsv, Except.map, hse]; rfl⟩

/-- The orchestrator's collected error list is empty on every input: the
partial-failure path of Generate is unreachable because per-type
generation is total. -/
theorem generate_collects_no_errors (ctx : Context) (types : List TypeDef) :
    (Generate ctx types).2 = [] := by
  suffices h : ∀ (acc : List GeneratedFile × List GenError),
      (types.foldl
        (fun acc td =>
          match generateType ctx td with
          | .error e => (acc.1, acc.2 ++ [e])
          | .ok none => acc
          | .ok (some f) => (acc.1 ++ [f], acc.2)) acc).2 = acc.2 by
    exact h ([], [])
  induction types with
  | nil => intro acc; rfl
  | cons td rest ih =>
      intro acc
      obtain ⟨v, hv⟩ := generateType_ok ctx td
      cases v with
      | none => simp [hv, ih]
      | some f => simp [hv, ih]

end Gql2J
